import Mathlib

/-!
# TurboSpork: cost module and Dense layer

A shallow embedding of `turbospork/src/costs.c` and `src/layers/layers_dense.c`.

* Scalars (`ts_f32`) are an arbitrary type `α` carrying the arithmetic operations the
  source uses; results that need the laws of exact arithmetic assume `Field α`.
* A pointer to a tensor is an `Option`: `none` is `NULL`.
* Undefined behaviour (dereferencing `NULL`, reading past a buffer or a table) is a
  `Fault`, the error branch of `Except`.
* The side-channel error signal written by `TS_ERR` is an explicit log.
* `pred` and `target` are distinct objects: tensors never alias buffers across owners.
-/

namespace TurboSpork

/-! ## Data model -/

/-- An execution that yields no result: undefined behaviour of the C code (`null_deref`,
`out_of_bounds`), or a loop without a bound that has used up the fuel the model gives it
(`out_of_fuel`). -/
inductive Fault where
  | null_deref
  | out_of_bounds
  | out_of_fuel
deriving DecidableEq, Repr

/-- Modelled from the spec: the error taxonomy of the error header (not in `src/`). -/
inductive ts_error_code where
  | TS_ERR_INVALID_INPUT
  | TS_ERR_CONSTRUCTION
  | TS_ERR_RESOURCE
deriving DecidableEq, Repr

/-- Modelled from the spec: an error as handed to the side channel, a code and a message. -/
structure ts_error where
  code : ts_error_code
  msg : String
deriving DecidableEq, Repr

/-- Modelled from the spec: the macro `TS_ERR(code, msg)` of the error header (not in
`src/`) reports the error through the side channel; the channel is a log that grows at
its end. -/
def TS_ERR (code : ts_error_code) (msg : String) (log : List ts_error) : List ts_error :=
  log ++ [⟨code, msg⟩]

/-- Modelled from the spec: the shape `(width, height, depth)` of a tensor; the three
fields are `ts_u32` in the tensor header (not in `src/`). -/
structure ts_tensor_shape where
  width : Nat
  height : Nat
  depth : Nat
deriving DecidableEq, Repr

/-- Modelled from the spec: a tensor is a shape and a buffer of scalars, `width` being the
fastest-varying index (the tensor header is not in `src/`). -/
structure ts_tensor (α : Type) where
  shape : ts_tensor_shape
  data : List α
deriving DecidableEq, Repr

/-- Modelled from the spec: two tensors are shape-equal iff all three dimensions match
(`ts_tensor_shape_eq` is not in `src/`). -/
def ts_tensor_shape_eq (a b : ts_tensor_shape) : Bool :=
  a.width == b.width && a.height == b.height && a.depth == b.depth

/-- The element count `(ts_u64)shape.width * shape.height * shape.depth` as the source
computes it, in 64-bit unsigned arithmetic. -/
def ts_shape_size (s : ts_tensor_shape) : Nat :=
  (((s.width % 2 ^ 64) * s.height) % 2 ^ 64 * s.depth) % 2 ^ 64

/-- A tensor as the library creates it: dimensions fit `ts_u32`, and the buffer holds
exactly `width * height * depth` scalars, a count that fits `ts_u64`. -/
def ts_tensor.valid {α : Type} (t : ts_tensor α) : Prop :=
  t.shape.width < 2 ^ 32 ∧ t.shape.height < 2 ^ 32 ∧ t.shape.depth < 2 ^ 32 ∧
    t.data.length = t.shape.width * t.shape.height * t.shape.depth ∧
    t.data.length < 2 ^ 64

instance {α : Type} (t : ts_tensor α) : Decidable t.valid := by
  unfold ts_tensor.valid; infer_instance

/-- Reading `p->field` or `*p`: a fault when `p` is `NULL`. -/
def deref {τ : Type} (p : Option τ) : Except Fault τ :=
  match p with
  | some v => .ok v
  | none => .error .null_deref

/-- Reading `data[i]`: a fault past the end of the buffer. -/
def load {τ : Type} (data : List τ) (i : Nat) : Except Fault τ :=
  match data[i]? with
  | some v => .ok v
  | none => .error .out_of_bounds

/-- Writing `data[i] = v`: a fault past the end of the buffer. -/
def store {τ : Type} (data : List τ) (i : Nat) (v : τ) : Except Fault (List τ) :=
  if i < data.length then .ok (data.set i v) else .error .out_of_bounds

/-! ## costs.c -/

/-- Modelled from the spec: the enumeration `ts_cost_type` of the cost header (not in
`src/`), {Null, MeanSquaredError, CategoricalCrossEntropy} followed by the count. A
selector is an unsigned integer, so values outside the enumeration exist. -/
def TS_COST_NULL : Nat := 0

/-- Modelled from the spec: second member of `ts_cost_type`. -/
def TS_COST_MEAN_SQUARED_ERROR : Nat := 1

/-- Modelled from the spec: third member of `ts_cost_type`. -/
def TS_COST_CATEGORICAL_CROSS_ENTROPY : Nat := 2

/-- Modelled from the spec: the number of members of `ts_cost_type`. -/
def TS_COST_COUNT : Nat := 3

section costs

variable {α : Type} [Zero α] [Add α] [Sub α] [Mul α] [Div α] [Neg α] [OfScientific α]
  [NatCast α]

/-- The struct `_cost` of costs.c: an evaluate function and a gradient function. The
gradient works on the memory of both arguments and returns the contents of `*in_out` and
of `*desired_out` when it is done. -/
structure cost_entry (α : Type) where
  func : ts_tensor α → ts_tensor α → Except Fault α
  grad : ts_tensor α → ts_tensor α → Except Fault (ts_tensor α × ts_tensor α)

/-- Source `null_func`, costs.c:65. -/
def null_func (_in _desired_out : ts_tensor α) : Except Fault α :=
  .ok 0

/-- Source `null_grad`, costs.c:71. -/
def null_grad (in_out desired_out : ts_tensor α) : Except Fault (ts_tensor α × ts_tensor α) :=
  .ok (in_out, desired_out)

/-- The loop of `mean_squared_func`, costs.c:85: `n` iterations remain, `i` is the index. -/
def mean_squared_func_loop (in_data d_out_data : List α) : Nat → Nat → α → Except Fault α
  | 0, _, sum => .ok sum
  | n + 1, i, sum => do
    let a ← load in_data i
    let b ← load d_out_data i
    mean_squared_func_loop in_data d_out_data n (i + 1) (sum + 0.5 * (a - b) * (a - b))

/-- Source `mean_squared_func`, costs.c:78. -/
def mean_squared_func (in_ desired_out : ts_tensor α) : Except Fault α := do
  let size := ts_shape_size in_.shape
  let sum ← mean_squared_func_loop in_.data desired_out.data size 0 0
  pure (sum / (size : α))

/-- The loop of `mean_squared_grad`, costs.c:97, on the two buffers. -/
def mean_squared_grad_loop : Nat → Nat → List α × List α → Except Fault (List α × List α)
  | 0, _, mem => .ok mem
  | n + 1, i, (in_out_data, d_out_data) => do
    let a ← load in_out_data i
    let b ← load d_out_data i
    mean_squared_grad_loop n (i + 1) (in_out_data.set i (a - b), d_out_data)

/-- Source `mean_squared_grad`, costs.c:91. -/
def mean_squared_grad (in_out desired_out : ts_tensor α) :
    Except Fault (ts_tensor α × ts_tensor α) := do
  let size := ts_shape_size in_out.shape
  let (in_out_data, d_out_data) ← mean_squared_grad_loop size 0 (in_out.data, desired_out.data)
  pure ({ in_out with data := in_out_data }, { desired_out with data := d_out_data })

/-- The loop of `cce_func`, costs.c:109; `logf` is the C library logarithm. -/
def cce_func_loop (logf : α → α) (in_data d_out_data : List α) :
    Nat → Nat → α → Except Fault α
  | 0, _, sum => .ok sum
  | n + 1, i, sum => do
    let a ← load in_data i
    let b ← load d_out_data i
    cce_func_loop logf in_data d_out_data n (i + 1) (sum + b * logf a)

/-- Source `cce_func`, costs.c:102. -/
def cce_func (logf : α → α) (in_ desired_out : ts_tensor α) : Except Fault α := do
  let size := ts_shape_size in_.shape
  let sum ← cce_func_loop logf in_.data desired_out.data size 0 0
  pure (-sum)

/-- The loop of `cce_grad`, costs.c:121, on the two buffers. -/
def cce_grad_loop : Nat → Nat → List α × List α → Except Fault (List α × List α)
  | 0, _, mem => .ok mem
  | n + 1, i, (in_out_data, d_out_data) => do
    let a ← load in_out_data i
    let b ← load d_out_data i
    cce_grad_loop n (i + 1) (in_out_data.set i (-b / (a + 1e-8)), d_out_data)

/-- Source `cce_grad`, costs.c:115. -/
def cce_grad (in_out desired_out : ts_tensor α) :
    Except Fault (ts_tensor α × ts_tensor α) := do
  let size := ts_shape_size in_out.shape
  let (in_out_data, d_out_data) ← cce_grad_loop size 0 (in_out.data, desired_out.data)
  pure ({ in_out with data := in_out_data }, { desired_out with data := d_out_data })

/-- The table `_costs` of costs.c:22, indexed by the cost kind. -/
def costs (logf : α → α) : List (cost_entry α) :=
  [ ⟨null_func, null_grad⟩,
    ⟨mean_squared_func, mean_squared_grad⟩,
    ⟨cce_func logf, cce_grad⟩ ]

/-- Source `ts_cost_func`, costs.c:28. Returns the value and the error log. -/
def ts_cost_func (logf : α → α) (type : Nat) (in_ desired_out : Option (ts_tensor α))
    (err : List ts_error) : Except Fault (α × List ts_error) :=
  if type ≥ TS_COST_COUNT then
    .ok (0, TS_ERR .TS_ERR_INVALID_INPUT "Invalid cost function type" err)
  else do
    let in_v ← deref in_
    let d_v ← deref desired_out
    if !ts_tensor_shape_eq in_v.shape d_v.shape then
      .ok (0, TS_ERR .TS_ERR_INVALID_INPUT
        "Input and desired output must align in cost function" err)
    else if in_.isNone || desired_out.isNone then
      .ok (0, TS_ERR .TS_ERR_INVALID_INPUT
        "Cannot compute cost: in and/or desired_out is NULL" err)
    else do
      let c ← load (costs logf) type
      let v ← c.func in_v d_v
      pure (v, err)

/-- Source `ts_cost_grad`, costs.c:46. Returns the memory behind `in_out` and
`desired_out`, and the error log. -/
def ts_cost_grad (logf : α → α) (type : Nat) (in_out desired_out : Option (ts_tensor α))
    (err : List ts_error) :
    Except Fault (Option (ts_tensor α) × Option (ts_tensor α) × List ts_error) :=
  if type ≥ TS_COST_COUNT then
    .ok (in_out, desired_out, TS_ERR .TS_ERR_INVALID_INPUT "Invalid cost function type" err)
  else do
    let in_v ← deref in_out
    let d_v ← deref desired_out
    if !ts_tensor_shape_eq in_v.shape d_v.shape then
      .ok (in_out, desired_out, TS_ERR .TS_ERR_INVALID_INPUT
        "Input and desired output must align in cost function" err)
    else if in_out.isNone || desired_out.isNone then
      .ok (in_out, desired_out, TS_ERR .TS_ERR_INVALID_INPUT
        "Cannot compute cost: in and/or desired_out is NULL" err)
    else do
      let c ← load (costs logf) type
      let (in_v', d_v') ← c.grad in_v d_v
      pure (some in_v', some d_v', err)

end costs

/-! ## layers_dense.c

`layers_dense.c` is written against the older names of the tensor header (`tensor`,
`tensor_shape`). The pointers that `_layer_dense_create` always sets (`weight`, `bias`,
`weight_transposed`) are modelled by the tensors they point to; the accumulators exist
only in training mode, so they stay `Option` pointers. The arena is left out: allocation
succeeds and returns zeroed memory. -/

/-- The struct `tensor_shape` under the name `layers_dense.c` uses. -/
abbrev tensor_shape := ts_tensor_shape

/-- The struct `tensor` under the name `layers_dense.c` uses. -/
abbrev tensor := ts_tensor

/-- Modelled from the spec: the two optimizer variants of the optimizer header (not in
`src/`). -/
inductive optimizer_type where
  | plain_gradient_descent
  | adam
deriving DecidableEq, Repr

/-- Modelled from the spec: the hyperparameters of Adam (`beta1`, `beta2`, `epsilon`), as
`examples/mnist.c` sets them. -/
structure optimizer_adam (α : Type) where
  beta1 : α
  beta2 : α
  epsilon : α

/-- Modelled from the spec: an optimizer is a variant, a learning rate and the Adam
hyperparameters, as `examples/mnist.c` sets them. -/
structure optimizer (α : Type) where
  type : optimizer_type
  learning_rate : α
  adam : optimizer_adam α

/-- Modelled from the spec: ParamChange, the accumulator of one trainable tensor: the
gradient sum `change`, the first-moment and second-moment moving averages `m` and `v` of
Adam, and the step counter `t` (the optimizer header is not in `src/`). -/
structure param_change (α : Type) where
  change : Option (tensor α)
  m : Option (tensor α)
  v : Option (tensor α)
  t : Nat

/-- Modelled from the spec: the Dense payload of a layer (the layer header is not in
`src/`): weight, bias, the cached transposed weight and the two accumulators, under the
field names `layers_dense.c` uses. -/
structure layer_dense_backend (α : Type) where
  weight : tensor α
  bias : tensor α
  weight_transposed : tensor α
  weight_change : param_change α
  bias_change : param_change α

/-- Modelled from the spec: a layer (the layer header is not in `src/`), reduced to the
fields `layers_dense.c` uses: the output shape, the `training_mode` flag fixed at
construction and the Dense payload. -/
structure layer (α : Type) where
  shape : tensor_shape
  training_mode : Bool
  dense_backend : layer_dense_backend α

/-- Modelled from the spec: the construction parameter of a Dense layer, its output
size, read as `desc->dense.size` (the layer header is not in `src/`). -/
structure layer_dense_desc where
  size : Nat
deriving DecidableEq, Repr

/-- Modelled from the spec: a layer description, reduced to the field `dense` that
`layers_dense.c` reads. -/
structure layer_desc where
  dense : layer_dense_desc
deriving DecidableEq, Repr

section dense

variable {α : Type} [Zero α] [One α] [Add α] [Sub α] [Mul α] [Div α] [Neg α]
  [OfScientific α] [NatCast α] [Pow α Nat] [LE α] [DecidableRel (fun a b : α => a ≤ b)]

/-- Modelled from the spec: `tensor_create` (not in `src/`), `create(shape) → zeroed
tensor` with `width * height * depth` elements. -/
def tensor_create (shape : tensor_shape) : tensor α :=
  ⟨shape, List.replicate (shape.width * shape.height * shape.depth) 0⟩

/-- Modelled from the spec: `tensor_copy_ip` (not in `src/`), the in-place form of `copy`:
the destination receives the shape and the elements of the source. -/
def tensor_copy_ip (_out t : tensor α) : tensor α :=
  ⟨t.shape, t.data⟩

/-- Modelled from the spec: `tensor_fill` (not in `src/`), `fill(value)`: every element of
the tensor becomes the value. -/
def tensor_fill (t : tensor α) (num : α) : tensor α :=
  { t with data := t.data.map (fun _ => num) }

/-- Modelled from the spec: `tensor_transpose` (not in `src/`), the in-place swap of
`width` and `height` with full data reordering, valid only when depth is 1; otherwise the
operation is a no-op. Element `k` of the new buffer sits at `x = k % height`,
`y = k / height` and is the old element at `x = k / height`, `y = k % height`. -/
def tensor_transpose (t : tensor α) : tensor α :=
  if t.shape.depth = 1 then
    ⟨⟨t.shape.height, t.shape.width, 1⟩,
      (List.range (t.shape.width * t.shape.height)).map (fun k =>
        t.data.getD (k / t.shape.height + (k % t.shape.height) * t.shape.width) 0)⟩
  else t

/-- The element at column `x` and row `y` of a tensor of depth 1, `width` being the
fastest-varying index. -/
def tensor_at (t : tensor α) (x y : Nat) : Option α :=
  t.data[x + y * t.shape.width]?

/-- The tensor `wt` is the transpose of the depth-1 tensor `w`: its shape is
`(w.height, w.width, 1)` and its element `(x = i, y = j)` is the element `(x = j, y = i)`
of `w`. -/
def is_transpose_of (wt w : tensor α) : Prop :=
  wt.shape = ⟨w.shape.height, w.shape.width, 1⟩ ∧
    ∀ i j, i < w.shape.height → j < w.shape.width →
      ∃ v, tensor_at wt i j = some v ∧ tensor_at w j i = some v

/-- The value `(param_change){ 0 }`. -/
def param_change_zero : param_change α :=
  ⟨none, none, none, 0⟩

/-- Modelled from the spec: `param_change_create` (not in `src/`) allocates the gradient
sum, of the shape of the parameter and zeroed, and the two moving averages of Adam. -/
def param_change_create (out : param_change α) (shape : tensor_shape) : param_change α :=
  { out with
    change := some (tensor_create shape)
    m := some (tensor_create shape)
    v := some (tensor_create shape) }

/-- Modelled from the spec: `param_change_update` (not in `src/`), the optimizer's
`apply(optimizer, parameter_tensor, param_change)`. Plain gradient descent:
`parameter -= learning_rate * gradient_sum`. Adam: `m = beta1*m + (1-beta1)*g`,
`v = beta2*v + (1-beta2)*g^2`, the step counter `t` is incremented, and
`parameter -= learning_rate * (m / (1-beta1^t)) / (sqrt(v/(1-beta2^t)) + epsilon)`.
The gradient sum is only read here: its reset is the caller's (layers_dense.c:103). -/
def param_change_update (sqrtf : α → α) (optim : optimizer α) (param : tensor α)
    (pc : param_change α) : Except Fault (tensor α × param_change α) :=
  match optim.type with
  | .plain_gradient_descent => do
    let g ← deref pc.change
    let p_data := List.zipWith (fun p g => p - optim.learning_rate * g) param.data g.data
    pure ({ param with data := p_data }, pc)
  | .adam => do
    let g ← deref pc.change
    let m ← deref pc.m
    let v ← deref pc.v
    let m_data := List.zipWith
      (fun m g => optim.adam.beta1 * m + (1 - optim.adam.beta1) * g) m.data g.data
    let v_data := List.zipWith
      (fun v g => optim.adam.beta2 * v + (1 - optim.adam.beta2) * g ^ 2) v.data g.data
    let t := pc.t + 1
    let p_data := List.zipWith (fun p (mv : α × α) =>
      p - optim.learning_rate * (mv.1 / (1 - optim.adam.beta1 ^ t)) /
        (sqrtf (mv.2 / (1 - optim.adam.beta2 ^ t)) + optim.adam.epsilon))
      param.data (List.zip m_data v_data)
    let m_new : tensor α := { m with data := m_data }
    let v_new : tensor α := { v with data := v_data }
    pure ({ param with data := p_data }, { pc with m := some m_new, v := some v_new, t := t })

/-- The do-while loop of `_standard_normal`, layers_dense.c:16. `rand k` is the value the
`k`-th call of the C library `rand()` returns, `calls` counts the calls made so far; the
loop has no bound, so it runs on fuel. Returns `u1` and the new call count. -/
def standard_normal_loop (rand : Nat → Nat) (RAND_MAX : Nat) (epsilon : α) :
    Nat → Nat → Except Fault (α × Nat)
  | 0, _ => .error .out_of_fuel
  | fuel + 1, calls =>
    let u1 : α := ((rand calls : α) / (RAND_MAX : α)) * 2.0 - 1.0
    if u1 ≤ epsilon then standard_normal_loop rand RAND_MAX epsilon fuel (calls + 1)
    else .ok (u1, calls + 1)

/-- Source `_standard_normal`, layers_dense.c:9; `sqrtf`, `logf` and `cos` are the C
library functions. -/
def standard_normal (rand : Nat → Nat) (RAND_MAX : Nat) (sqrtf logf cos : α → α)
    (fuel calls : Nat) : Except Fault (α × Nat) := do
  let epsilon : α := 1e-6
  let two_pi : α := 2.0 * 3.141592653
  let (u1, calls) ← standard_normal_loop rand RAND_MAX epsilon fuel calls
  let u2 : α := ((rand calls : α) / (RAND_MAX : α)) * 2.0 - 1.0
  let calls := calls + 1
  let mag := sqrtf (-2.0 * logf u1)
  let z0 := mag * cos (two_pi * u2)
  pure (z0, calls)

/-- The weight initialisation loop of `_layer_dense_create`, layers_dense.c:51: `n`
iterations remain, `i` is the index; the state is the weight buffer and the call count of
`rand()`. -/
def layer_dense_create_loop (rand : Nat → Nat) (RAND_MAX : Nat) (sqrtf logf cos : α → α)
    (fuel : Nat) (weight_scale : α) : Nat → Nat → List α × Nat → Except Fault (List α × Nat)
  | 0, _, st => .ok st
  | n + 1, i, (data, calls) => do
    let (z, calls) ← standard_normal rand RAND_MAX sqrtf logf cos fuel calls
    let data ← store data i z
    let x ← load data i
    let data ← store data i (x * weight_scale)
    layer_dense_create_loop rand RAND_MAX sqrtf logf cos fuel weight_scale n (i + 1)
      (data, calls)

/-- Source `_layer_dense_create`, layers_dense.c:28. `out` is the layer as the caller
hands it over (its `training_mode` is set); returns the layer and the call count of
`rand()`. -/
def layer_dense_create (rand : Nat → Nat) (RAND_MAX : Nat) (sqrtf logf cos : α → α)
    (fuel : Nat) (out : layer α) (desc : layer_desc) (prev_shape : tensor_shape)
    (calls : Nat) : Except Fault (layer α × Nat) := do
  let in_size := prev_shape.width
  let out_size := desc.dense.size
  let bias_shape : tensor_shape := ⟨out_size, 1, 1⟩
  let weight_shape : tensor_shape := ⟨out_size, in_size, 1⟩
  let out := { out with shape := bias_shape }
  let bias : tensor α := tensor_create bias_shape
  let weight : tensor α := tensor_create weight_shape
  let weight_transposed : tensor α := tensor_create weight_shape
  let bias_change :=
    if out.training_mode then param_change_create param_change_zero bias_shape
    else out.dense_backend.bias_change
  let weight_change :=
    if out.training_mode then param_change_create param_change_zero weight_shape
    else out.dense_backend.weight_change
  let weight_scale : α := 1.0 / sqrtf (out_size : α)
  let weight_size := ts_shape_size weight_shape
  let (weight_data, calls) ← layer_dense_create_loop rand RAND_MAX sqrtf logf cos fuel
    weight_scale weight_size 0 (weight.data, calls)
  let weight := { weight with data := weight_data }
  let weight_transposed := tensor_copy_ip weight_transposed weight
  let weight_transposed := tensor_transpose weight_transposed
  let dense : layer_dense_backend α :=
    ⟨weight, bias, weight_transposed, weight_change, bias_change⟩
  pure ({ out with dense_backend := dense }, calls)

/-- Source `_layer_dense_apply_changes`, layers_dense.c:94. -/
def layer_dense_apply_changes (sqrtf : α → α) (l : layer α) (optim : optimizer α) :
    Except Fault (layer α) := do
  let dense := l.dense_backend
  let (weight, weight_change) ←
    param_change_update sqrtf optim dense.weight dense.weight_change
  let (bias, bias_change) ← param_change_update sqrtf optim dense.bias dense.bias_change
  let weight_transposed := tensor_copy_ip dense.weight_transposed weight
  let weight_transposed := tensor_transpose weight_transposed
  let wc ← deref weight_change.change
  let weight_change := { weight_change with change := some (tensor_fill wc 0) }
  let bc ← deref bias_change.change
  let bias_change := { bias_change with change := some (tensor_fill bc 0) }
  let dense : layer_dense_backend α :=
    ⟨weight, bias, weight_transposed, weight_change, bias_change⟩
  pure { l with dense_backend := dense }

/-- The state of a Dense layer in training mode: the flag is set and the accumulators of
weight and bias are allocated, each tensor of them with as many elements as its
parameter; the weight has depth 1 and `width * height` elements. `_layer_dense_create`
establishes it and `_layer_dense_apply_changes` keeps it. -/
def dense_training_state (l : layer α) : Prop :=
  l.training_mode = true ∧
  l.dense_backend.weight.shape.depth = 1 ∧
  l.dense_backend.weight.data.length =
    l.dense_backend.weight.shape.width * l.dense_backend.weight.shape.height ∧
  (∃ c m v, l.dense_backend.weight_change.change = some c ∧
    l.dense_backend.weight_change.m = some m ∧ l.dense_backend.weight_change.v = some v ∧
    c.data.length = l.dense_backend.weight.data.length ∧
    m.data.length = l.dense_backend.weight.data.length ∧
    v.data.length = l.dense_backend.weight.data.length) ∧
  (∃ c m v, l.dense_backend.bias_change.change = some c ∧
    l.dense_backend.bias_change.m = some m ∧ l.dense_backend.bias_change.v = some v ∧
    c.data.length = l.dense_backend.bias.data.length ∧
    m.data.length = l.dense_backend.bias.data.length ∧
    v.data.length = l.dense_backend.bias.data.length)

end dense

/-- The `k`-th value of `rand()` ends the rejection loop of `_standard_normal`: the `u1`
computed from it is not `<= epsilon`. -/
def rand_accepted {α : Type} [Sub α] [Mul α] [Div α] [OfScientific α] [NatCast α] [LE α]
    (rand : Nat → Nat) (RAND_MAX : Nat) (k : Nat) : Prop :=
  ¬ (((rand k : α) / (RAND_MAX : α)) * 2.0 - 1.0 ≤ (1e-6 : α))

/-! ## layers_dense.c: feedforward and backprop

The tensor operations and the activation cache are not in `src/`; they are modelled from
the spec. A shape mismatch is reported on the error log and the operation is a no-op. -/

/-- Modelled from the spec: ActivationCache, a stack of tensors (the head of the list is
the top); the memory scope paired with it is left out. -/
structure layers_cache (α : Type) where
  stack : List (tensor α)

section dense_passes

variable {α : Type} [Zero α] [Add α] [Mul α]

/-- Modelled from the spec: `layers_cache_push` (not in `src/`) puts a tensor on top of
the stack. -/
def layers_cache_push (cache : layers_cache α) (t : tensor α) : layers_cache α :=
  ⟨t :: cache.stack⟩

/-- Modelled from the spec: `layers_cache_pop` (not in `src/`) takes the top of the stack
off and returns it; on an empty stack it returns `NULL`. -/
def layers_cache_pop (cache : layers_cache α) : Option (tensor α) × layers_cache α :=
  match cache.stack with
  | [] => (none, cache)
  | t :: rest => (some t, ⟨rest⟩)

/-- Modelled from the spec: `tensor_copy` (not in `src/`), `copy(src, deep?)`: a new
tensor with the shape and the elements of the source. The result is a tensor of its own:
by the data model tensors do not share a buffer across owners, whatever the flag. -/
def tensor_copy (t : tensor α) (_deep : Bool) : tensor α :=
  ⟨t.shape, t.data⟩

/-- The element at column `x` and row `y` of a tensor of depth 1, zero outside its
buffer. -/
def tensor_get (t : tensor α) (x y : Nat) : α :=
  t.data.getD (x + y * t.shape.width) 0

/-- Modelled from the spec: `tensor_add_ip` (not in `src/`), the in-place elementwise
`add`: `out = a + b`; if the shapes of `a` and `b` differ the mismatch is reported and
`out` is left as it is. -/
def tensor_add_ip (out a b : tensor α) (err : List ts_error) : tensor α × List ts_error :=
  if ts_tensor_shape_eq a.shape b.shape then
    (⟨a.shape, List.zipWith (fun p q => p + q) a.data b.data⟩, err)
  else
    (out, TS_ERR .TS_ERR_INVALID_INPUT "Cannot add tensors: shapes do not align" err)

/-- The elements of the matrix product of `a` (`a.height` rows, `a.width` columns) and
`b`: element `(x, y)` is the sum over `k` of `a(x = k, y) * b(x, y = k)`. -/
def tensor_dot_data (a b : tensor α) : List α :=
  (List.range (b.shape.width * a.shape.height)).map (fun idx =>
    ((List.range a.shape.width).map (fun k =>
      tensor_get a k (idx / b.shape.width) * tensor_get b (idx % b.shape.width) k)).sum)

/-- Modelled from the spec: `tensor_dot_ip` (not in `src/`), the in-place `dot`: the
tensors are 2-D matrices with `(height, width)` as `(rows, cols)`, `out` becomes the
standard matrix product of `a` and `b`, of shape `(b.width, a.height, 1)`; if
`a.width != b.height` the mismatch is reported and `out` is left as it is. The Dense layer
multiplies tensors of depth 1 only, and the model is the product of the first channel. -/
def tensor_dot_ip (out a b : tensor α) (err : List ts_error) : tensor α × List ts_error :=
  if a.shape.width = b.shape.height then
    (⟨⟨b.shape.width, a.shape.height, 1⟩, tensor_dot_data a b⟩, err)
  else
    (out, TS_ERR .TS_ERR_INVALID_INPUT "Cannot dot tensors: shapes do not align" err)

/-- Modelled from the spec: `tensor_dot` (not in `src/`), the allocating `dot`: a new
tensor holding the matrix product; on a shape mismatch the error is reported and the
default value `NULL` is returned. -/
def tensor_dot (a b : tensor α) (err : List ts_error) :
    Option (tensor α) × List ts_error :=
  if a.shape.width = b.shape.height then
    (some ⟨⟨b.shape.width, a.shape.height, 1⟩, tensor_dot_data a b⟩, err)
  else
    (none, TS_ERR .TS_ERR_INVALID_INPUT "Cannot dot tensors: shapes do not align" err)

/-- Source `_layer_dense_feedforward`, layers_dense.c:60. Returns the memory behind `l`,
`in_out` and `cache`, and the error log. -/
def layer_dense_feedforward (l : layer α) (in_out : tensor α)
    (cache : Option (layers_cache α)) (err : List ts_error) :
    layer α × tensor α × Option (layers_cache α) × List ts_error :=
  let dense := l.dense_backend
  let cache :=
    match cache with
    | some c =>
      if l.training_mode then
        let input := tensor_copy in_out false
        some (layers_cache_push c input)
      else some c
    | none => none
  let (in_out, err) := tensor_dot_ip in_out in_out dense.weight err
  let (in_out, err) := tensor_add_ip in_out in_out dense.bias err
  (l, in_out, cache, err)

/-- Source `_layer_dense_backprop`, layers_dense.c:71. Returns the memory behind `l`,
`delta` and `cache`, and the error log. A `NULL` accumulator, cache, popped tensor or
product is dereferenced by the operation that receives it. -/
def layer_dense_backprop (l : layer α) (delta : tensor α)
    (cache : Option (layers_cache α)) (err : List ts_error) :
    Except Fault (layer α × tensor α × Option (layers_cache α) × List ts_error) := do
  let dense := l.dense_backend
  let bc ← deref dense.bias_change.change
  let (bc, err) := tensor_add_ip bc bc delta err
  let bias_change : param_change α := { dense.bias_change with change := some bc }
  let c ← deref cache
  let (prev_input, c) := layers_cache_pop c
  let prev_input ← deref prev_input
  let prev_input := tensor_transpose prev_input
  let (cur_weight_change, err) := tensor_dot prev_input delta err
  let wc ← deref dense.weight_change.change
  let cur_weight_change ← deref cur_weight_change
  let (wc, err) := tensor_add_ip wc wc cur_weight_change err
  let weight_change : param_change α := { dense.weight_change with change := some wc }
  let (delta, err) := tensor_dot_ip delta delta dense.weight_transposed err
  let dense : layer_dense_backend α :=
    { dense with bias_change := bias_change, weight_change := weight_change }
  pure ({ l with dense_backend := dense }, delta, some c, err)

/-- Running `_layer_dense_backprop` once per sample of a batch, in the order of the list;
a sample is the cached input and the incoming delta, each run has a cache of its own that
holds the cached input. Returns the layer and the error log. -/
def layer_dense_backprop_batch (l : layer α) :
    List (tensor α × tensor α) → List ts_error → Except Fault (layer α × List ts_error)
  | [], err => .ok (l, err)
  | (x, d) :: rest, err => do
    let (l, _, _, err) ← layer_dense_backprop l d (some ⟨[x]⟩) err
    layer_dense_backprop_batch l rest err

/-- A Dense layer with `n` inputs and `m` outputs in training mode, as
`_layer_dense_create` leaves it and the Dense operations keep it: weight of shape
`(m, n, 1)`, bias of shape `(m, 1, 1)`, `weight_transposed` the transpose of the weight,
and both gradient sums allocated with the shape of their parameter; every buffer holds
`width * height` elements. -/
def dense_layer_ready (l : layer α) (m n : Nat) : Prop :=
  l.training_mode = true ∧
  l.dense_backend.weight.shape = ⟨m, n, 1⟩ ∧ l.dense_backend.weight.data.length = m * n ∧
  l.dense_backend.bias.shape = ⟨m, 1, 1⟩ ∧ l.dense_backend.bias.data.length = m ∧
  is_transpose_of l.dense_backend.weight_transposed l.dense_backend.weight ∧
  l.dense_backend.weight_transposed.data.length = n * m ∧
  (∃ c, l.dense_backend.weight_change.change = some c ∧ c.shape = ⟨m, n, 1⟩ ∧
    c.data.length = m * n) ∧
  (∃ c, l.dense_backend.bias_change.change = some c ∧ c.shape = ⟨m, 1, 1⟩ ∧
    c.data.length = m)

end dense_passes

/-- The value an evaluation returns, zero when it yields none. -/
def value_of {α : Type} [Zero α] (r : Except Fault α) : α :=
  match r with
  | .ok v => v
  | .error _ => 0

/-! ## layers_dense.c: feedforward on an explicit memory

Whether the tensor `_layer_dense_feedforward` pushes shares its buffer with `in_out` cannot
be said of tensors passed by value. Here a tensor struct holds the address of its buffer
in a memory of buffers, an in-place operation writes through the address of `out`, and an
allocation returns an address that was not in use. The weight and the bias stay with the
layer. -/

/-- Modelled from the spec: a tensor struct in memory (the tensor header is not in
`src/`): the shape and the address of the buffer, the pointer `data`. -/
structure tensor_ref where
  shape : tensor_shape
  data : Nat
deriving DecidableEq, Repr

/-- Modelled from the spec: ActivationCache on an explicit memory, a stack of tensor
structs (the head of the list is the top). -/
structure layers_cache_ref where
  stack : List tensor_ref
deriving DecidableEq, Repr

section dense_memory

variable {α : Type} [Zero α] [Add α] [Mul α]

/-- The tensor a struct denotes: its shape and the buffer at its address; a fault when
the address is not allocated. -/
def tensor_read (mem : List (List α)) (t : tensor_ref) : Except Fault (tensor α) := do
  let buf ← load mem t.data
  pure ⟨t.shape, buf⟩

/-- An in-place result: the buffer at the address of `out` receives the elements, the
struct `out` receives the shape; a fault when the address is not allocated. -/
def tensor_write (mem : List (List α)) (out : tensor_ref) (v : tensor α) :
    Except Fault (tensor_ref × List (List α)) := do
  let mem ← store mem out.data v.data
  pure (⟨v.shape, out.data⟩, mem)

/-- Modelled from the spec: `tensor_copy` (not in `src/`) on an explicit memory,
`copy(src, deep?)`: a new tensor in the arena it is given, with the shape and the elements
of the source. By the data model a tensor does not share its buffer with a tensor of
another owner except through a view operation, and `copy` is none: the buffer of the
result is allocated, at an address not in use, whatever the flag. -/
def tensor_copy_mem (mem : List (List α)) (t : tensor_ref) (deep : Bool) :
    Except Fault (tensor_ref × List (List α)) := do
  let src ← tensor_read mem t
  let copy := tensor_copy src deep
  pure (⟨copy.shape, mem.length⟩, mem ++ [copy.data])

/-- Modelled from the spec: `layers_cache_push` (not in `src/`) on tensor structs. -/
def layers_cache_push_ref (cache : layers_cache_ref) (t : tensor_ref) : layers_cache_ref :=
  ⟨t :: cache.stack⟩

/-- Modelled from the spec: `tensor_dot_ip` on an explicit memory: the product of `a` and
`b`, as `tensor_dot_ip` gives it, is written through `out`. -/
def tensor_dot_ip_mem (mem : List (List α)) (out a : tensor_ref) (b : tensor α)
    (err : List ts_error) : Except Fault (List (List α) × tensor_ref × List ts_error) := do
  let out_v ← tensor_read mem out
  let a_v ← tensor_read mem a
  let (r, err) := tensor_dot_ip out_v a_v b err
  let (out, mem) ← tensor_write mem out r
  pure (mem, out, err)

/-- Modelled from the spec: `tensor_add_ip` on an explicit memory: the sum of `a` and `b`,
as `tensor_add_ip` gives it, is written through `out`. -/
def tensor_add_ip_mem (mem : List (List α)) (out a : tensor_ref) (b : tensor α)
    (err : List ts_error) : Except Fault (List (List α) × tensor_ref × List ts_error) := do
  let out_v ← tensor_read mem out
  let a_v ← tensor_read mem a
  let (r, err) := tensor_add_ip out_v a_v b err
  let (out, mem) ← tensor_write mem out r
  pure (mem, out, err)

/-- Source `_layer_dense_feedforward`, layers_dense.c:60, on an explicit memory. Returns
the memory, the struct `in_out`, the cache and the error log. -/
def layer_dense_feedforward_mem (l : layer α) (mem : List (List α)) (in_out : tensor_ref)
    (cache : Option layers_cache_ref) (err : List ts_error) :
    Except Fault (List (List α) × tensor_ref × Option layers_cache_ref × List ts_error) := do
  let dense := l.dense_backend
  let (mem, cache) ←
    match cache with
    | some c =>
      if l.training_mode then do
        let (input, mem) ← tensor_copy_mem mem in_out false
        pure (mem, some (layers_cache_push_ref c input))
      else pure (mem, some c)
    | none => pure (mem, none)
  let (mem, in_out, err) ← tensor_dot_ip_mem mem in_out in_out dense.weight err
  let (mem, in_out, err) ← tensor_add_ip_mem mem in_out in_out dense.bias err
  pure (mem, in_out, cache, err)

end dense_memory

/-! ## Example values -/

/-- A prediction with two elements. -/
def ex_pred : ts_tensor ℚ := ⟨⟨2, 1, 1⟩, [3, 5]⟩

/-- A target of the shape of `ex_pred`. -/
def ex_target : ts_tensor ℚ := ⟨⟨2, 1, 1⟩, [1, 1]⟩

/-- A target whose shape differs from that of `ex_pred`. -/
def ex_target_tall : ts_tensor ℚ := ⟨⟨1, 2, 1⟩, [1, 1]⟩

/-- A layer as the caller hands it to `_layer_dense_create`: zeroed, training mode set. -/
def ex_layer_blank : layer ℚ :=
  ⟨⟨0, 0, 0⟩, true, ⟨⟨⟨0, 0, 0⟩, []⟩, ⟨⟨0, 0, 0⟩, []⟩, ⟨⟨0, 0, 0⟩, []⟩,
    ⟨none, none, none, 0⟩, ⟨none, none, none, 0⟩⟩⟩

/-- A Dense layer in training mode with 3 inputs and 2 outputs and gradients accumulated. -/
def ex_layer : layer ℚ :=
  ⟨⟨2, 1, 1⟩, true,
    ⟨⟨⟨2, 3, 1⟩, [1, 2, 3, 4, 5, 6]⟩, ⟨⟨2, 1, 1⟩, [7, 8]⟩, ⟨⟨3, 2, 1⟩, [1, 3, 5, 2, 4, 6]⟩,
      ⟨some ⟨⟨2, 3, 1⟩, [1, 1, 1, 1, 1, 1]⟩, some ⟨⟨2, 3, 1⟩, [0, 0, 0, 0, 0, 0]⟩,
        some ⟨⟨2, 3, 1⟩, [0, 0, 0, 0, 0, 0]⟩, 0⟩,
      ⟨some ⟨⟨2, 1, 1⟩, [1, 1]⟩, some ⟨⟨2, 1, 1⟩, [0, 0]⟩, some ⟨⟨2, 1, 1⟩, [0, 0]⟩, 0⟩⟩⟩

/-- Adam with the hyperparameters of `examples/mnist.c`. -/
def ex_optim : optimizer ℚ :=
  ⟨.adam, 0.001, ⟨0.9, 0.999, 1e-7⟩⟩

/-- An input for `ex_layer`, of the parent shape `(3, 1, 1)`. -/
def ex_input : tensor ℚ := ⟨⟨3, 1, 1⟩, [1, 10, 100]⟩

/-- An incoming delta for `ex_layer`, of its output shape `(2, 1, 1)`. -/
def ex_delta : tensor ℚ := ⟨⟨2, 1, 1⟩, [1, 10]⟩

/-- The layer `_layer_dense_create` returns for `ex_layer_blank`, size 2 and parent shape
`(3, 1, 1)` when every draw of `rand()` is `RAND_MAX`, `sqrtf` and `cos` are constantly 1
and `logf` is constantly 0: every weight is 1. -/
def ex_layer_created : layer ℚ :=
  ⟨⟨2, 1, 1⟩, true,
    ⟨⟨⟨2, 3, 1⟩, [1, 1, 1, 1, 1, 1]⟩, ⟨⟨2, 1, 1⟩, [0, 0]⟩, ⟨⟨3, 2, 1⟩, [1, 1, 1, 1, 1, 1]⟩,
      ⟨some ⟨⟨2, 3, 1⟩, [0, 0, 0, 0, 0, 0]⟩, some ⟨⟨2, 3, 1⟩, [0, 0, 0, 0, 0, 0]⟩,
        some ⟨⟨2, 3, 1⟩, [0, 0, 0, 0, 0, 0]⟩, 0⟩,
      ⟨some ⟨⟨2, 1, 1⟩, [0, 0]⟩, some ⟨⟨2, 1, 1⟩, [0, 0]⟩, some ⟨⟨2, 1, 1⟩, [0, 0]⟩, 0⟩⟩⟩

/-- A batch of two samples (cached input, delta) for `ex_layer`. -/
def ex_samples : List (tensor ℚ × tensor ℚ) :=
  [(⟨⟨3, 1, 1⟩, [2, 3, 5]⟩, ⟨⟨2, 1, 1⟩, [1, 10]⟩), (⟨⟨3, 1, 1⟩, [1, 1, 1]⟩, ⟨⟨2, 1, 1⟩, [1, 1]⟩)]

/-- A memory with two buffers: at address 0 some other tensor's, at address 1 the input
`[1, 10, 100]` of `ex_layer`. -/
def ex_memory : List (List ℚ) := [[4, 4], [1, 10, 100]]

/-- The struct `in_out` of shape `(3, 1, 1)` whose buffer is at address 1. -/
def ex_in_out : tensor_ref := ⟨⟨3, 1, 1⟩, 1⟩

/-! ## Lemmas on the loops -/

section lemmas

variable {α : Type}

theorem load_eq_ok {τ : Type} (data : List τ) (i : Nat) (h : i < data.length) :
    load data i = .ok (data[i]) := by
  simp [load, List.getElem?_eq_getElem h]

theorem ts_shape_size_valid (t : ts_tensor α) (h : t.valid) :
    ts_shape_size t.shape = t.data.length := by
  obtain ⟨_, _, _, hlen, hlt⟩ := h
  unfold ts_shape_size
  have h1 : t.shape.width * t.shape.height * t.shape.depth < 2 ^ 64 := hlen ▸ hlt
  rcases Nat.eq_zero_or_pos t.shape.depth with hd | hd
  · simp [hd, hlen]
  · have h2 : t.shape.width * t.shape.height < 2 ^ 64 :=
      lt_of_le_of_lt (Nat.le_mul_of_pos_right _ hd) h1
    have h3 : t.shape.width % 2 ^ 64 = t.shape.width := by
      rcases Nat.eq_zero_or_pos t.shape.height with hh | hh
      · simp [hh] at hlen
        exact Nat.mod_eq_of_lt (by omega)
      · exact Nat.mod_eq_of_lt (lt_of_le_of_lt (Nat.le_mul_of_pos_right _ hh) h2)
    rw [h3, Nat.mod_eq_of_lt h2, Nat.mod_eq_of_lt h1, hlen]

theorem ts_tensor_shape_eq_iff (a b : ts_tensor_shape) :
    ts_tensor_shape_eq a b = true ↔ a = b := by
  cases a; cases b; simp [ts_tensor_shape_eq, and_assoc]

theorem mean_squared_grad_loop_spec [Sub α] (d : List α) :
    ∀ (n i : Nat) (cur : List α), i + n = cur.length → cur.length = d.length →
      ∃ r, mean_squared_grad_loop n i (cur, d) = .ok (r, d) ∧ r.length = cur.length ∧
        ∀ (j : Nat) (hc : j < cur.length) (hd : j < d.length),
          r[j]? = some (if i ≤ j then cur[j] - d[j] else cur[j]) := by
  intro n
  induction n with
  | zero =>
    intro i cur hi hl
    refine ⟨cur, rfl, rfl, fun j hc hd => ?_⟩
    have : ¬ i ≤ j := by omega
    simp [this, List.getElem?_eq_getElem hc]
  | succ n ih =>
    intro i cur hi hl
    have hic : i < cur.length := by omega
    have hid : i < d.length := by omega
    obtain ⟨r, hr, hlen, hj⟩ :=
      ih (i + 1) (cur.set i (cur[i] - d[i])) (by simp; omega) (by simpa using hl)
    refine ⟨r, ?_, by simpa using hlen, fun j hc hd => ?_⟩
    · simp only [mean_squared_grad_loop, load_eq_ok _ _ hic, load_eq_ok _ _ hid]
      exact hr
    · rw [hj j (by simpa using hc) hd]
      by_cases h2 : i = j
      · subst h2
        simp
      · by_cases h1 : i + 1 ≤ j
        · have : i ≤ j := by omega
          simp [h1, this, List.getElem_set_ne h2]
        · have : ¬ i ≤ j := by omega
          simp [h1, this, List.getElem_set_ne h2]

theorem cce_grad_loop_spec [Add α] [Neg α] [Div α] [OfScientific α] (d : List α) :
    ∀ (n i : Nat) (cur : List α), i + n = cur.length → cur.length = d.length →
      ∃ r, cce_grad_loop n i (cur, d) = .ok (r, d) ∧ r.length = cur.length ∧
        ∀ (j : Nat) (hc : j < cur.length) (hd : j < d.length),
          r[j]? = some (if i ≤ j then -d[j] / (cur[j] + 1e-8) else cur[j]) := by
  intro n
  induction n with
  | zero =>
    intro i cur hi hl
    refine ⟨cur, rfl, rfl, fun j hc hd => ?_⟩
    have : ¬ i ≤ j := by omega
    simp [this, List.getElem?_eq_getElem hc]
  | succ n ih =>
    intro i cur hi hl
    have hic : i < cur.length := by omega
    have hid : i < d.length := by omega
    obtain ⟨r, hr, hlen, hj⟩ :=
      ih (i + 1) (cur.set i (-d[i] / (cur[i] + 1e-8))) (by simp; omega) (by simpa using hl)
    refine ⟨r, ?_, by simpa using hlen, fun j hc hd => ?_⟩
    · simp only [cce_grad_loop, load_eq_ok _ _ hic, load_eq_ok _ _ hid]
      exact hr
    · rw [hj j (by simpa using hc) hd]
      by_cases h2 : i = j
      · subst h2
        simp
      · by_cases h1 : i + 1 ≤ j
        · have : i ≤ j := by omega
          simp [h1, this, List.getElem_set_ne h2]
        · have : ¬ i ≤ j := by omega
          simp [h1, this, List.getElem_set_ne h2]

theorem mean_squared_func_loop_spec [Add α] [Sub α] [Mul α] [OfScientific α]
    (a d : List α) :
    ∀ (n i : Nat) (sum : α), i + n = a.length → a.length = d.length →
      mean_squared_func_loop a d n i sum = .ok
        ((List.zipWith (fun p t => 0.5 * (p - t) * (p - t)) (a.drop i) (d.drop i)).foldl
          (· + ·) sum) := by
  intro n
  induction n with
  | zero =>
    intro i sum hi hl
    have h1 : a.drop i = [] := List.drop_eq_nil_of_le (by omega)
    simp [mean_squared_func_loop, h1]
  | succ n ih =>
    intro i sum hi hl
    have hia : i < a.length := by omega
    have hid : i < d.length := by omega
    simp only [mean_squared_func_loop, load_eq_ok _ _ hia, load_eq_ok _ _ hid]
    rw [List.drop_eq_getElem_cons hia, List.drop_eq_getElem_cons hid]
    exact ih (i + 1) _ (by omega) hl

theorem cce_func_loop_spec [Add α] [Mul α] (logf : α → α) (a d : List α) :
    ∀ (n i : Nat) (sum : α), i + n = a.length → a.length = d.length →
      cce_func_loop logf a d n i sum = .ok
        ((List.zipWith (fun p t => t * logf p) (a.drop i) (d.drop i)).foldl (· + ·) sum) := by
  intro n
  induction n with
  | zero =>
    intro i sum hi hl
    have h1 : a.drop i = [] := List.drop_eq_nil_of_le (by omega)
    simp [cce_func_loop, h1]
  | succ n ih =>
    intro i sum hi hl
    have hia : i < a.length := by omega
    have hid : i < d.length := by omega
    simp only [cce_func_loop, load_eq_ok _ _ hia, load_eq_ok _ _ hid]
    rw [List.drop_eq_getElem_cons hia, List.drop_eq_getElem_cons hid]
    exact ih (i + 1) _ (by omega) hl

theorem foldl_add_eq_sum [AddCommMonoid α] (l : List α) (s : α) :
    l.foldl (· + ·) s = s + l.sum := by
  induction l generalizing s with
  | nil => simp
  | cons x xs ih => simp [ih, add_assoc]

theorem valid_length_eq (p t : ts_tensor α) (hs : p.shape = t.shape) (hp : p.valid)
    (ht : t.valid) : p.data.length = t.data.length := by
  rw [hp.2.2.2.1, ht.2.2.2.1, hs]


end lemmas

/-! ## Claims on the cost module -/

section claims_costs

variable {α : Type}

/-- C1. For shape-equal tensors `pred` and `target`, `ts_cost_grad` with the
MeanSquaredError kind returns without error, leaves in `pred` at every index `i` the
value `old pred[i] - target[i]`, keeps the shape and length of `pred`, and leaves `target`
unchanged. -/
theorem ts_cost_grad_mean_squared_error [Zero α] [Add α] [Sub α] [Mul α] [Div α] [Neg α]
    [OfScientific α] [NatCast α] (logf : α → α) (pred target : ts_tensor α)
    (err : List ts_error) (hshape : pred.shape = target.shape) (hp : pred.valid)
    (ht : target.valid) :
    ∃ r, ts_cost_grad logf TS_COST_MEAN_SQUARED_ERROR (some pred) (some target) err
          = .ok (some r, some target, err) ∧
      r.shape = pred.shape ∧ r.data.length = pred.data.length ∧
      ∀ (i : Nat) (hi : i < pred.data.length) (hi' : i < target.data.length),
        r.data[i]? = some (pred.data[i] - target.data[i]) := by
  have hl := valid_length_eq pred target hshape hp ht
  obtain ⟨r, hr, hlen, hj⟩ := mean_squared_grad_loop_spec target.data pred.data.length 0
    pred.data (by simp) hl
  refine ⟨{ pred with data := r }, ?_, rfl, hlen, fun i hi hi' => ?_⟩
  · have hse : ts_tensor_shape_eq pred.shape target.shape = true :=
      (ts_tensor_shape_eq_iff _ _).2 hshape
    simp [ts_cost_grad, TS_COST_MEAN_SQUARED_ERROR, TS_COST_COUNT, deref, hse, costs, load,
      mean_squared_grad, ts_shape_size_valid pred hp, hr, bind, Except.bind, pure, Except.pure]
  · simpa using hj i hi hi'

theorem ts_cost_grad_mean_squared_error_witness :
    (ex_pred.shape = ex_target.shape ∧ ex_pred.valid ∧ ex_target.valid) ∧
    ∃ r, ts_cost_grad id TS_COST_MEAN_SQUARED_ERROR (some ex_pred) (some ex_target) []
          = .ok (some r, some ex_target, []) ∧
      r.shape = ex_pred.shape ∧ r.data.length = ex_pred.data.length ∧
      ∀ (i : Nat) (_ : i < ex_pred.data.length) (hi' : i < ex_target.data.length),
        r.data[i]? = some (ex_pred.data[i] - ex_target.data[i]) :=
  ⟨⟨rfl, by decide, by decide⟩,
    ts_cost_grad_mean_squared_error id ex_pred ex_target [] rfl (by decide) (by decide)⟩


/-- C2. For shape-equal tensors with `size = width * height * depth` elements,
`ts_cost_func` with the MeanSquaredError kind returns, without error, the sum over all
elements of `0.5 * (pred[i] - target[i])^2` divided by `size` (exact arithmetic). -/
theorem ts_cost_func_mean_squared_error [Field α] (logf : α → α) (pred target : ts_tensor α)
    (err : List ts_error) (hshape : pred.shape = target.shape) (hp : pred.valid)
    (ht : target.valid) :
    ts_cost_func logf TS_COST_MEAN_SQUARED_ERROR (some pred) (some target) err
      = .ok ((List.zipWith (fun p t => 0.5 * (p - t) ^ 2) pred.data target.data).sum /
          ((pred.shape.width * pred.shape.height * pred.shape.depth : Nat) : α), err) := by
  have hl := valid_length_eq pred target hshape hp ht
  have hse : ts_tensor_shape_eq pred.shape target.shape = true :=
    (ts_tensor_shape_eq_iff _ _).2 hshape
  have hloop := mean_squared_func_loop_spec pred.data target.data pred.data.length 0 0
    (by simp) hl
  have hfun : (fun (p t : α) => 0.5 * (p - t) * (p - t)) = fun p t => 0.5 * (p - t) ^ 2 := by
    funext p t; ring
  have hsz : pred.shape.width * pred.shape.height * pred.shape.depth = pred.data.length :=
    hp.2.2.2.1.symm
  simp [ts_cost_func, TS_COST_MEAN_SQUARED_ERROR, TS_COST_COUNT, deref, hse, costs, load,
    mean_squared_func, ts_shape_size_valid pred hp, hloop, bind, Except.bind, pure,
    Except.pure, foldl_add_eq_sum, hfun, hsz]

theorem ts_cost_func_mean_squared_error_witness :
    (ex_pred.shape = ex_target.shape ∧ ex_pred.valid ∧ ex_target.valid) ∧
    ts_cost_func id TS_COST_MEAN_SQUARED_ERROR (some ex_pred) (some ex_target) []
      = .ok ((List.zipWith (fun p t => 0.5 * (p - t) ^ 2) ex_pred.data ex_target.data).sum /
          ((ex_pred.shape.width * ex_pred.shape.height * ex_pred.shape.depth : Nat) : ℚ), []) :=
  ⟨⟨rfl, by decide, by decide⟩,
    ts_cost_func_mean_squared_error id ex_pred ex_target [] rfl (by decide) (by decide)⟩

theorem neg_log_seven_tenths_approx : |(-Real.log 0.7) - 0.357| < 0.0005 := by
  have h1 : (-Real.log 0.7) = Real.log (10 / 7) := by
    rw [← Real.log_inv]; norm_num
  rw [h1, abs_lt]
  constructor
  · have : Real.exp 0.3565 < 10 / 7 := by
      have hb := Real.exp_bound' (x := 0.3565) (by norm_num) (by norm_num) (n := 5) (by norm_num)
      simp only [Finset.sum_range_succ, Finset.sum_range_zero, Nat.factorial] at hb
      norm_num at hb
      linarith
    have := (Real.lt_log_iff_exp_lt (by norm_num : (0:ℝ) < 10 / 7)).2 this
    linarith
  · have : (10 : ℝ) / 7 < Real.exp 0.3575 := by
      have hb := Real.sum_le_exp_of_nonneg (x := 0.3575) (by norm_num) 5
      simp only [Finset.sum_range_succ, Finset.sum_range_zero, Nat.factorial] at hb
      norm_num at hb
      linarith
    have := (Real.log_lt_iff_lt_exp (by norm_num : (0:ℝ) < 10 / 7)).2 this
    linarith

theorem zipWith_log_congr (ln : ℝ → ℝ) (hln : ∀ x, 0 < x → ln x = Real.log x) :
    ∀ (p t : List ℝ), (∀ x ∈ p, 0 < x) →
      List.zipWith (fun p t => t * ln p) p t = List.zipWith (fun p t => t * Real.log p) p t
  | [], _, _ => by simp
  | _ :: _, [], _ => by simp
  | a :: p, b :: t, h => by
    have ha : 0 < a := h a (List.mem_cons_self _ _)
    have ih := zipWith_log_congr ln hln p t (fun x hx => h x (List.mem_cons_of_mem _ hx))
    simp only [List.zipWith_cons_cons, hln a ha, ih]

theorem ts_cost_func_cce_eq_fold [Zero α] [Add α] [Sub α] [Mul α] [Div α] [Neg α]
    [OfScientific α] [NatCast α] (logf : α → α) (pred target : ts_tensor α)
    (err : List ts_error) (hshape : pred.shape = target.shape) (hp : pred.valid)
    (ht : target.valid) :
    ts_cost_func logf TS_COST_CATEGORICAL_CROSS_ENTROPY (some pred) (some target) err
      = .ok (-(List.foldl (fun s v => s + v) 0
          (List.zipWith (fun p t => t * logf p) pred.data target.data)), err) := by
  have hl := valid_length_eq pred target hshape hp ht
  have hse : ts_tensor_shape_eq pred.shape target.shape = true :=
    (ts_tensor_shape_eq_iff _ _).2 hshape
  have hloop := cce_func_loop_spec logf pred.data target.data pred.data.length 0 0
    (by simp) hl
  simp [ts_cost_func, TS_COST_CATEGORICAL_CROSS_ENTROPY, TS_COST_COUNT, deref, hse, costs,
    load, cce_func, ts_shape_size_valid pred hp, hloop, bind, Except.bind, pure, Except.pure]

/-- C3. For valid shape-equal tensors, `ts_cost_func` with the CategoricalCrossEntropy
kind returns, without error, minus the sum (taken from 0 in index order) of
`target[i] * logf(pred[i])`, for any scalar type and whatever the library logarithm
`logf` returns, with no arithmetic law used. Over the reals, for any `logf` that is the
natural logarithm on the positive reals and any `pred` with positive entries, the result
is minus the sum over all elements of `target[i] * ln(pred[i])`; for `pred = [0.7, 0.3]`
and `target = [1, 0]` it is `-ln 0.7`, which lies within `0.0005` of `0.357`. -/
theorem ts_cost_func_categorical_cross_entropy [Zero α] [Add α] [Sub α] [Mul α] [Div α]
    [Neg α] [OfScientific α] [NatCast α] (logf : α → α) (pred target : ts_tensor α)
    (err : List ts_error) (hshape : pred.shape = target.shape) (hp : pred.valid)
    (ht : target.valid) :
    ts_cost_func logf TS_COST_CATEGORICAL_CROSS_ENTROPY (some pred) (some target) err
      = .ok (-(List.foldl (fun s v => s + v) 0
          (List.zipWith (fun p t => t * logf p) pred.data target.data)), err) ∧
    (∀ (ln : ℝ → ℝ) (p t : ts_tensor ℝ), (∀ x, 0 < x → ln x = Real.log x) →
      p.shape = t.shape → p.valid → t.valid → (∀ x ∈ p.data, 0 < x) →
      ts_cost_func ln TS_COST_CATEGORICAL_CROSS_ENTROPY (some p) (some t) err
        = .ok (-(List.zipWith (fun p t => t * Real.log p) p.data t.data).sum, err)) ∧
    (∀ (ln : ℝ → ℝ), (∀ x, 0 < x → ln x = Real.log x) →
      ts_cost_func ln TS_COST_CATEGORICAL_CROSS_ENTROPY
          (some ⟨⟨2, 1, 1⟩, [0.7, 0.3]⟩) (some ⟨⟨2, 1, 1⟩, [1, 0]⟩) err
        = .ok (-Real.log 0.7, err)) ∧
    |(-Real.log 0.7) - 0.357| < 0.0005 := by
  have key : ∀ (ln : ℝ → ℝ) (p t : ts_tensor ℝ), (∀ x, 0 < x → ln x = Real.log x) →
      p.shape = t.shape → p.valid → t.valid → (∀ x ∈ p.data, 0 < x) →
      ts_cost_func ln TS_COST_CATEGORICAL_CROSS_ENTROPY (some p) (some t) err
        = .ok (-(List.zipWith (fun p t => t * Real.log p) p.data t.data).sum, err) := by
    intro ln p t hln hs hpv htv hpos
    rw [ts_cost_func_cce_eq_fold ln p t err hs hpv htv, foldl_add_eq_sum,
      zipWith_log_congr ln hln p.data t.data hpos, zero_add]
  refine ⟨ts_cost_func_cce_eq_fold logf pred target err hshape hp ht, key, ?_,
    neg_log_seven_tenths_approx⟩
  intro ln hln
  rw [key ln ⟨⟨2, 1, 1⟩, [0.7, 0.3]⟩ ⟨⟨2, 1, 1⟩, [1, 0]⟩ hln rfl
    (by norm_num [ts_tensor.valid]) (by norm_num [ts_tensor.valid])
    (by intro x hx; simp at hx; rcases hx with rfl | rfl <;> norm_num)]
  simp

theorem ts_cost_func_categorical_cross_entropy_witness :
    ((⟨⟨2, 1, 1⟩, [0.7, 0.3]⟩ : ts_tensor ℝ).shape = (⟨⟨2, 1, 1⟩, [1, 0]⟩ : ts_tensor ℝ).shape ∧
      (⟨⟨2, 1, 1⟩, [0.7, 0.3]⟩ : ts_tensor ℝ).valid ∧
      (⟨⟨2, 1, 1⟩, [1, 0]⟩ : ts_tensor ℝ).valid) ∧
    (ts_cost_func Real.log TS_COST_CATEGORICAL_CROSS_ENTROPY
        (some ⟨⟨2, 1, 1⟩, [0.7, 0.3]⟩) (some ⟨⟨2, 1, 1⟩, [1, 0]⟩) []
      = .ok (-(List.foldl (fun s v => s + v) 0
          (List.zipWith (fun p t => t * Real.log p) [0.7, 0.3] [1, 0])), []) ∧
    (∀ (ln : ℝ → ℝ) (p t : ts_tensor ℝ), (∀ x, 0 < x → ln x = Real.log x) →
      p.shape = t.shape → p.valid → t.valid → (∀ x ∈ p.data, 0 < x) →
      ts_cost_func ln TS_COST_CATEGORICAL_CROSS_ENTROPY (some p) (some t) []
        = .ok (-(List.zipWith (fun p t => t * Real.log p) p.data t.data).sum, [])) ∧
    (∀ (ln : ℝ → ℝ), (∀ x, 0 < x → ln x = Real.log x) →
      ts_cost_func ln TS_COST_CATEGORICAL_CROSS_ENTROPY
          (some ⟨⟨2, 1, 1⟩, [0.7, 0.3]⟩) (some ⟨⟨2, 1, 1⟩, [1, 0]⟩) []
        = .ok (-Real.log 0.7, [])) ∧
    |(-Real.log 0.7) - 0.357| < 0.0005) :=
  ⟨⟨rfl, by norm_num [ts_tensor.valid], by norm_num [ts_tensor.valid]⟩,
    ts_cost_func_categorical_cross_entropy Real.log ⟨⟨2, 1, 1⟩, [0.7, 0.3]⟩
      ⟨⟨2, 1, 1⟩, [1, 0]⟩ [] rfl (by norm_num [ts_tensor.valid])
      (by norm_num [ts_tensor.valid])⟩

/-- C4. For shape-equal tensors `pred` and `target`, `ts_cost_grad` with the
CategoricalCrossEntropy kind returns without error, leaves in `pred` at every index `i`
the value `-target[i] / (old pred[i] + 1e-8)`, keeps the shape and length of `pred`, and
leaves `target` unchanged. -/
theorem ts_cost_grad_categorical_cross_entropy [Zero α] [Add α] [Sub α] [Mul α] [Div α]
    [Neg α] [OfScientific α] [NatCast α] (logf : α → α) (pred target : ts_tensor α)
    (err : List ts_error) (hshape : pred.shape = target.shape) (hp : pred.valid)
    (ht : target.valid) :
    ∃ r, ts_cost_grad logf TS_COST_CATEGORICAL_CROSS_ENTROPY (some pred) (some target) err
          = .ok (some r, some target, err) ∧
      r.shape = pred.shape ∧ r.data.length = pred.data.length ∧
      ∀ (i : Nat) (hi : i < pred.data.length) (hi' : i < target.data.length),
        r.data[i]? = some (-target.data[i] / (pred.data[i] + 1e-8)) := by
  have hl := valid_length_eq pred target hshape hp ht
  obtain ⟨r, hr, hlen, hj⟩ := cce_grad_loop_spec target.data pred.data.length 0
    pred.data (by simp) hl
  refine ⟨{ pred with data := r }, ?_, rfl, hlen, fun i hi hi' => ?_⟩
  · have hse : ts_tensor_shape_eq pred.shape target.shape = true :=
      (ts_tensor_shape_eq_iff _ _).2 hshape
    simp [ts_cost_grad, TS_COST_CATEGORICAL_CROSS_ENTROPY, TS_COST_COUNT, deref, hse, costs,
      load, cce_grad, ts_shape_size_valid pred hp, hr, bind, Except.bind, pure, Except.pure]
  · simpa using hj i hi hi'

theorem ts_cost_grad_categorical_cross_entropy_witness :
    (ex_pred.shape = ex_target.shape ∧ ex_pred.valid ∧ ex_target.valid) ∧
    ∃ r, ts_cost_grad id TS_COST_CATEGORICAL_CROSS_ENTROPY (some ex_pred) (some ex_target) []
          = .ok (some r, some ex_target, []) ∧
      r.shape = ex_pred.shape ∧ r.data.length = ex_pred.data.length ∧
      ∀ (i : Nat) (_ : i < ex_pred.data.length) (hi' : i < ex_target.data.length),
        r.data[i]? = some (-ex_target.data[i] / (ex_pred.data[i] + 1e-8)) :=
  ⟨⟨rfl, by decide, by decide⟩,
    ts_cost_grad_categorical_cross_entropy id ex_pred ex_target [] rfl (by decide)
      (by decide)⟩

/-- C5. With the Null kind, for any two tensors (whatever their shapes), `ts_cost_func`
returns the value 0 and `ts_cost_grad` returns with `pred` and `target` unchanged. -/
theorem ts_cost_null [Zero α] [Add α] [Sub α] [Mul α] [Div α] [Neg α] [OfScientific α]
    [NatCast α] (logf : α → α) (pred target : ts_tensor α) (err : List ts_error) :
    (∃ err', ts_cost_func logf TS_COST_NULL (some pred) (some target) err = .ok (0, err')) ∧
    (∃ err', ts_cost_grad logf TS_COST_NULL (some pred) (some target) err
      = .ok (some pred, some target, err')) := by
  by_cases hse : ts_tensor_shape_eq pred.shape target.shape = true
  · exact ⟨⟨err, by simp [ts_cost_func, TS_COST_NULL, TS_COST_COUNT, deref, hse, costs, load,
        null_func, bind, Except.bind, pure, Except.pure]⟩,
      ⟨err, by simp [ts_cost_grad, TS_COST_NULL, TS_COST_COUNT, deref, hse, costs, load,
        null_grad, bind, Except.bind, pure, Except.pure]⟩⟩
  · exact ⟨⟨_, by simp [ts_cost_func, TS_COST_NULL, TS_COST_COUNT, deref, hse, bind,
        Except.bind]; rfl⟩,
      ⟨_, by simp [ts_cost_grad, TS_COST_NULL, TS_COST_COUNT, deref, hse, bind,
        Except.bind]; rfl⟩⟩

/-- C6. For a cost kind of the enumeration and two tensors whose shapes differ,
`ts_cost_func` reports InvalidInput and returns 0, and `ts_cost_grad` reports
InvalidInput and leaves `pred` (and `target`) unchanged. -/
theorem ts_cost_shape_mismatch [Zero α] [Add α] [Sub α] [Mul α] [Div α] [Neg α]
    [OfScientific α] [NatCast α] (logf : α → α) (type : Nat) (pred target : ts_tensor α)
    (err : List ts_error) (htype : type < TS_COST_COUNT)
    (hshape : pred.shape ≠ target.shape) :
    ts_cost_func logf type (some pred) (some target) err
      = .ok (0, err ++ [⟨.TS_ERR_INVALID_INPUT,
          "Input and desired output must align in cost function"⟩]) ∧
    ts_cost_grad logf type (some pred) (some target) err
      = .ok (some pred, some target, err ++ [⟨.TS_ERR_INVALID_INPUT,
          "Input and desired output must align in cost function"⟩]) := by
  have hse : ¬ ts_tensor_shape_eq pred.shape target.shape = true :=
    fun h => hshape ((ts_tensor_shape_eq_iff _ _).1 h)
  have ht : ¬ type ≥ TS_COST_COUNT := by omega
  constructor
  · simp [ts_cost_func, ht, deref, hse, bind, Except.bind, TS_ERR]
  · simp [ts_cost_grad, ht, deref, hse, bind, Except.bind, TS_ERR]

theorem ts_cost_shape_mismatch_witness :
    (TS_COST_MEAN_SQUARED_ERROR < TS_COST_COUNT ∧ ex_pred.shape ≠ ex_target_tall.shape) ∧
    (ts_cost_func id TS_COST_MEAN_SQUARED_ERROR (some ex_pred) (some ex_target_tall) []
      = .ok (0, [] ++ [⟨.TS_ERR_INVALID_INPUT,
          "Input and desired output must align in cost function"⟩]) ∧
    ts_cost_grad id TS_COST_MEAN_SQUARED_ERROR (some ex_pred) (some ex_target_tall) []
      = .ok (some ex_pred, some ex_target_tall, [] ++ [⟨.TS_ERR_INVALID_INPUT,
          "Input and desired output must align in cost function"⟩])) :=
  ⟨⟨by decide, by decide⟩,
    ts_cost_shape_mismatch id TS_COST_MEAN_SQUARED_ERROR ex_pred ex_target_tall []
      (by decide) (by decide)⟩

/-- C7 (failing input). With a kind of the enumeration and `pred = NULL`, both
`ts_cost_func` and `ts_cost_grad` read `pred->shape` before they test `pred` against
`NULL`: the outcome is a null dereference, not a reported InvalidInput; the same holds
for `target = NULL`. -/
theorem ts_cost_null_pointer_dereferenced :
    ts_cost_func id TS_COST_MEAN_SQUARED_ERROR none (some ex_target) []
      = .error Fault.null_deref ∧
    ts_cost_grad id TS_COST_MEAN_SQUARED_ERROR none (some ex_target) []
      = .error Fault.null_deref ∧
    ts_cost_func id TS_COST_MEAN_SQUARED_ERROR (some ex_pred) none []
      = .error Fault.null_deref ∧
    ts_cost_grad id TS_COST_MEAN_SQUARED_ERROR (some ex_pred) none []
      = .error Fault.null_deref := by
  refine ⟨rfl, rfl, rfl, rfl⟩

/-- C8. For a selector outside the enumeration (`type >= TS_COST_COUNT`) and any
arguments, absent ones included, `ts_cost_func` reports InvalidInput and returns 0 and
`ts_cost_grad` reports InvalidInput and leaves both arguments unchanged; both return
normally, so the table is not read past its end. -/
theorem ts_cost_invalid_type [Zero α] [Add α] [Sub α] [Mul α] [Div α] [Neg α]
    [OfScientific α] [NatCast α] (logf : α → α) (type : Nat)
    (pred target : Option (ts_tensor α)) (err : List ts_error)
    (htype : type ≥ TS_COST_COUNT) :
    ts_cost_func logf type pred target err
      = .ok (0, err ++ [⟨.TS_ERR_INVALID_INPUT, "Invalid cost function type"⟩]) ∧
    ts_cost_grad logf type pred target err
      = .ok (pred, target, err ++ [⟨.TS_ERR_INVALID_INPUT, "Invalid cost function type"⟩]) ∧
    load (costs logf) type = .error Fault.out_of_bounds := by
  refine ⟨by simp [ts_cost_func, htype, TS_ERR], by simp [ts_cost_grad, htype, TS_ERR], ?_⟩
  have h : (costs logf).length ≤ type := by simpa [costs, TS_COST_COUNT] using htype
  simp [load, List.getElem?_eq_none h]

theorem ts_cost_invalid_type_witness :
    (7 ≥ TS_COST_COUNT) ∧
    (ts_cost_func id 7 none (some ex_target) []
      = .ok (0, [] ++ [⟨.TS_ERR_INVALID_INPUT, "Invalid cost function type"⟩]) ∧
    ts_cost_grad id 7 none (some ex_target) []
      = .ok (none, some ex_target,
          [] ++ [⟨.TS_ERR_INVALID_INPUT, "Invalid cost function type"⟩]) ∧
    load (costs (id : ℚ → ℚ)) 7 = .error Fault.out_of_bounds) :=
  ⟨by decide, ts_cost_invalid_type id 7 none (some ex_target) [] (by decide)⟩

end claims_costs



/-! ## Lemmas on the Dense layer -/

section dense_lemmas
variable {α : Type}

theorem tensor_transpose_is_transpose [Zero α] (o w : tensor α) (hd : w.shape.depth = 1)
    (hl : w.data.length = w.shape.width * w.shape.height) :
    is_transpose_of (tensor_transpose (tensor_copy_ip o w)) w := by
  unfold is_transpose_of tensor_transpose tensor_copy_ip
  simp only [hd, if_true]
  refine ⟨trivial, fun i j hi hj => ?_⟩
  have hk : i + j * w.shape.height < w.shape.width * w.shape.height := by
    calc i + j * w.shape.height < w.shape.height + j * w.shape.height := by omega
      _ = (j + 1) * w.shape.height := by ring
      _ ≤ w.shape.width * w.shape.height := Nat.mul_le_mul_right _ hj
  have hk' : j + i * w.shape.width < w.data.length := by
    rw [hl]
    calc j + i * w.shape.width < w.shape.width + i * w.shape.width := by omega
      _ = w.shape.width * (i + 1) := by ring
      _ ≤ w.shape.width * w.shape.height := Nat.mul_le_mul_left _ hi
  have hdiv : (i + j * w.shape.height) / w.shape.height = j := by
    rw [Nat.add_mul_div_right _ _ (by omega), Nat.div_eq_of_lt hi, Nat.zero_add]
  have hmod : (i + j * w.shape.height) % w.shape.height = i := by
    rw [Nat.add_mul_mod_self_right, Nat.mod_eq_of_lt hi]
  refine ⟨w.data[j + i * w.shape.width], ?_, ?_⟩
  · simp [tensor_at, hk, hdiv, hmod, List.getElem?_eq_getElem hk']
  · simp [tensor_at, List.getElem?_eq_getElem hk']

theorem param_change_update_spec [One α] [Add α] [Sub α] [Mul α] [Div α] [Pow α Nat]
    (sqrtf : α → α) (optim : optimizer α) (param : tensor α) (pc : param_change α)
    (c m v : tensor α) (hc : pc.change = some c) (hm : pc.m = some m) (hv : pc.v = some v)
    (hcl : c.data.length = param.data.length) (hml : m.data.length = param.data.length)
    (hvl : v.data.length = param.data.length) :
    ∃ w pc', param_change_update sqrtf optim param pc = .ok (w, pc') ∧
      w.shape = param.shape ∧ w.data.length = param.data.length ∧
      pc'.change = some c ∧
      ∃ m' v', pc'.m = some m' ∧ pc'.v = some v' ∧
        m'.data.length = param.data.length ∧ v'.data.length = param.data.length := by
  cases ht : optim.type with
  | plain_gradient_descent =>
    simp only [param_change_update, ht, hc, deref, bind, Except.bind, pure, Except.pure]
    refine ⟨_, _, rfl, rfl, ?_, hc, m, v, hm, hv, hml, hvl⟩
    simp [hcl]
  | adam =>
    simp only [param_change_update, ht, hc, hm, hv, deref, bind, Except.bind, pure,
      Except.pure]
    refine ⟨_, _, rfl, rfl, ?_, rfl, _, _, rfl, rfl, ?_, ?_⟩ <;> simp [hcl, hml, hvl]


theorem ts_shape_size_le (s : ts_tensor_shape) :
    ts_shape_size s ≤ s.width * s.height * s.depth := by
  unfold ts_shape_size
  calc (s.width % 2 ^ 64 * s.height) % 2 ^ 64 * s.depth % 2 ^ 64
      ≤ (s.width % 2 ^ 64 * s.height) % 2 ^ 64 * s.depth := Nat.mod_le _ _
    _ ≤ (s.width % 2 ^ 64 * s.height) * s.depth := Nat.mul_le_mul_right _ (Nat.mod_le _ _)
    _ ≤ s.width * s.height * s.depth :=
        Nat.mul_le_mul_right _ (Nat.mul_le_mul_right _ (Nat.mod_le _ _))

theorem store_eq_ok {τ : Type} (data : List τ) (i : Nat) (v : τ) (h : i < data.length) :
    store data i v = .ok (data.set i v) := by
  simp [store, h]

theorem standard_normal_loop_terminates [Sub α] [Mul α] [Div α] [OfScientific α] [NatCast α]
    [LE α] [DecidableRel (fun a b : α => a ≤ b)] (rand : Nat → Nat) (RAND_MAX : Nat) :
    ∀ (k calls : Nat), rand_accepted (α := α) rand RAND_MAX (calls + k) →
      ∃ f0 r, ∀ fuel, f0 ≤ fuel →
        standard_normal_loop (α := α) rand RAND_MAX 1e-6 fuel calls = .ok r := by
  intro k
  induction k with
  | zero =>
    intro calls h
    refine ⟨1, (((rand calls : α) / (RAND_MAX : α)) * 2.0 - 1.0, calls + 1), ?_⟩
    intro fuel hf
    obtain ⟨f, rfl⟩ : ∃ f, fuel = f + 1 := ⟨fuel - 1, by omega⟩
    have h' : ¬ (((rand calls : α) / (RAND_MAX : α)) * 2.0 - 1.0 ≤ (1e-6 : α)) := h
    simp [standard_normal_loop, h']
  | succ k ih =>
    intro calls h
    by_cases hacc : ((rand calls : α) / (RAND_MAX : α)) * 2.0 - 1.0 ≤ (1e-6 : α)
    · obtain ⟨f0, r, hr⟩ := ih (calls + 1) (by rwa [Nat.add_assoc, Nat.add_comm 1 k])
      refine ⟨f0 + 1, r, ?_⟩
      intro fuel hf
      obtain ⟨f, rfl⟩ : ∃ f, fuel = f + 1 := ⟨fuel - 1, by omega⟩
      simp only [standard_normal_loop, hacc, if_true]
      exact hr f (by omega)
    · refine ⟨1, (((rand calls : α) / (RAND_MAX : α)) * 2.0 - 1.0, calls + 1), ?_⟩
      intro fuel hf
      obtain ⟨f, rfl⟩ : ∃ f, fuel = f + 1 := ⟨fuel - 1, by omega⟩
      simp [standard_normal_loop, hacc]

theorem standard_normal_terminates [Sub α] [Mul α] [Div α] [Neg α] [OfScientific α]
    [NatCast α] [LE α] [DecidableRel (fun a b : α => a ≤ b)] (rand : Nat → Nat)
    (RAND_MAX : Nat) (sqrtf logf cos : α → α) (calls : Nat)
    (h : ∃ k, rand_accepted (α := α) rand RAND_MAX (calls + k)) :
    ∃ f0 r, ∀ fuel, f0 ≤ fuel →
      standard_normal rand RAND_MAX sqrtf logf cos fuel calls = .ok r := by
  obtain ⟨k, hk⟩ := h
  obtain ⟨f0, ⟨u1, c⟩, hr⟩ := standard_normal_loop_terminates rand RAND_MAX k calls hk
  refine ⟨f0, (sqrtf (-2.0 * logf u1) *
    cos (2.0 * 3.141592653 * (((rand c : α) / (RAND_MAX : α)) * 2.0 - 1.0)), c + 1),
    fun fuel hf => ?_⟩
  simp only [standard_normal, hr fuel hf, bind, Except.bind, pure, Except.pure]

theorem layer_dense_create_loop_terminates [Sub α] [Mul α] [Div α] [Neg α] [OfScientific α]
    [NatCast α] [LE α] [DecidableRel (fun a b : α => a ≤ b)] (rand : Nat → Nat)
    (RAND_MAX : Nat) (sqrtf logf cos : α → α) (weight_scale : α)
    (hfair : ∀ calls, ∃ k, rand_accepted (α := α) rand RAND_MAX (calls + k)) :
    ∀ (n i : Nat) (data : List α) (calls : Nat), i + n ≤ data.length →
      ∃ f0 r, r.1.length = data.length ∧ ∀ fuel, f0 ≤ fuel →
        layer_dense_create_loop rand RAND_MAX sqrtf logf cos fuel weight_scale n i
          (data, calls) = .ok r := by
  intro n
  induction n with
  | zero =>
    intro i data calls _
    exact ⟨0, (data, calls), rfl, fun fuel _ => rfl⟩
  | succ n ih =>
    intro i data calls hi
    have hi' : i < data.length := by omega
    obtain ⟨f1, ⟨z, c⟩, hz⟩ :=
      standard_normal_terminates rand RAND_MAX sqrtf logf cos calls (hfair calls)
    have hs1 : i < (data.set i z).length := by simpa using hi'
    obtain ⟨f2, r, hlen, hr⟩ :=
      ih (i + 1) ((data.set i z).set i ((data.set i z)[i] * weight_scale)) c
        (by simp; omega)
    refine ⟨max f1 f2, r, by simpa using hlen, fun fuel hf => ?_⟩
    simp only [layer_dense_create_loop, hz fuel (le_trans (le_max_left _ _) hf),
      store_eq_ok _ _ _ hi', load_eq_ok _ _ hs1, store_eq_ok _ _ _ hs1, bind, Except.bind]
    exact hr fuel (le_trans (le_max_right _ _) hf)

theorem layer_dense_create_loop_length [Sub α] [Mul α] [Div α] [Neg α] [OfScientific α]
    [NatCast α] [LE α] [DecidableRel (fun a b : α => a ≤ b)] (rand : Nat → Nat)
    (RAND_MAX : Nat) (sqrtf logf cos : α → α) (fuel : Nat) (weight_scale : α) :
    ∀ (n i : Nat) (data : List α) (calls : Nat) (r : List α × Nat),
      layer_dense_create_loop rand RAND_MAX sqrtf logf cos fuel weight_scale n i
          (data, calls) = .ok r → r.1.length = data.length := by
  intro n
  induction n with
  | zero =>
    intro i data calls r h
    simp only [layer_dense_create_loop, Except.ok.injEq] at h
    rw [← h]
  | succ n ih =>
    intro i data calls r h
    simp only [layer_dense_create_loop, bind, Except.bind] at h
    split at h
    · cases h
    · rename_i zc hz
      by_cases hi : i < data.length
      · have hs1 : i < (data.set i zc.1).length := by simpa using hi
        simp only [store_eq_ok _ _ _ hi, load_eq_ok _ _ hs1, store_eq_ok _ _ _ hs1] at h
        simpa using ih _ _ _ _ h
      · simp [store, hi] at h

end dense_lemmas

/-! ## Claims on the Dense layer -/

section claims_dense
variable {α : Type}

theorem ex_layer_training_state : dense_training_state ex_layer :=
  ⟨rfl, rfl, rfl, ⟨_, _, _, rfl, rfl, rfl, rfl, rfl, rfl⟩,
    ⟨_, _, _, rfl, rfl, rfl, rfl, rfl, rfl⟩⟩

theorem layer_dense_apply_changes_spec [Zero α] [One α] [Add α] [Sub α] [Mul α] [Div α]
    [Pow α Nat] (sqrtf : α → α) (l : layer α) (optim : optimizer α)
    (h : dense_training_state l) :
    ∃ w wpc b bpc wc bc,
      param_change_update sqrtf optim l.dense_backend.weight l.dense_backend.weight_change
        = .ok (w, wpc) ∧
      param_change_update sqrtf optim l.dense_backend.bias l.dense_backend.bias_change
        = .ok (b, bpc) ∧
      wpc.change = some wc ∧ bpc.change = some bc ∧
      wc.data.length = l.dense_backend.weight.data.length ∧
      bc.data.length = l.dense_backend.bias.data.length ∧
      w.shape = l.dense_backend.weight.shape ∧
      w.data.length = l.dense_backend.weight.data.length ∧
      b.data.length = l.dense_backend.bias.data.length ∧
      (∃ m v, wpc.m = some m ∧ wpc.v = some v ∧ m.data.length = w.data.length ∧
        v.data.length = w.data.length) ∧
      (∃ m v, bpc.m = some m ∧ bpc.v = some v ∧ m.data.length = b.data.length ∧
        v.data.length = b.data.length) ∧
      layer_dense_apply_changes sqrtf l optim = .ok
        { l with dense_backend :=
            ⟨w, b, tensor_transpose (tensor_copy_ip l.dense_backend.weight_transposed w),
              { wpc with change := some (tensor_fill wc 0) },
              { bpc with change := some (tensor_fill bc 0) }⟩ } := by
  obtain ⟨_, _, _, ⟨c, m, v, hc, hm, hv, hcl, hml, hvl⟩,
    ⟨c', m', v', hc', hm', hv', hcl', hml', hvl'⟩⟩ := h
  obtain ⟨w, wpc, hw, hws, hwl, hwc, mw, vw, hmw, hvw, hmwl, hvwl⟩ :=
    param_change_update_spec sqrtf optim _ _ c m v hc hm hv hcl hml hvl
  obtain ⟨b, bpc, hb, _, hbl, hbc, mb, vb, hmb, hvb, hmbl, hvbl⟩ :=
    param_change_update_spec sqrtf optim _ _ c' m' v' hc' hm' hv' hcl' hml' hvl'
  refine ⟨w, wpc, b, bpc, c, c', hw, hb, hwc, hbc, hcl, hcl', hws, hwl, hbl,
    ⟨mw, vw, hmw, hvw, by rw [hwl]; exact hmwl, by rw [hwl]; exact hvwl⟩,
    ⟨mb, vb, hmb, hvb, by rw [hbl]; exact hmbl, by rw [hbl]; exact hvbl⟩, ?_⟩
  simp only [layer_dense_apply_changes, hw, hb, hwc, hbc, deref, bind, Except.bind, pure,
    Except.pure]

/-- C9. For a Dense layer in training mode (accumulators allocated), any optimizer and
any accumulator contents, `_layer_dense_apply_changes` returns, and afterwards the
gradient sums `weight_change.change` and `bias_change.change` are still allocated, have
as many elements as their parameter, and every element of both is zero. -/
theorem layer_dense_apply_changes_resets_accumulators [Zero α] [One α] [Add α] [Sub α]
    [Mul α] [Div α] [Pow α Nat] (sqrtf : α → α) (l : layer α) (optim : optimizer α)
    (h : dense_training_state l) :
    ∃ l' wc bc, layer_dense_apply_changes sqrtf l optim = .ok l' ∧
      l'.dense_backend.weight_change.change = some wc ∧
      l'.dense_backend.bias_change.change = some bc ∧
      wc.data.length = l.dense_backend.weight.data.length ∧
      bc.data.length = l.dense_backend.bias.data.length ∧
      (∀ x ∈ wc.data, x = 0) ∧ (∀ x ∈ bc.data, x = 0) := by
  obtain ⟨w, wpc, b, bpc, wc, bc, _, _, _, _, hwl, hbl, _, _, _, _, _, hl⟩ :=
    layer_dense_apply_changes_spec sqrtf l optim h
  refine ⟨_, tensor_fill wc 0, tensor_fill bc 0, hl, rfl, rfl, ?_, ?_, ?_, ?_⟩
  · simpa [tensor_fill] using hwl
  · simpa [tensor_fill] using hbl
  · intro x hx
    simp only [tensor_fill, List.mem_map] at hx
    obtain ⟨_, _, rfl⟩ := hx
    rfl
  · intro x hx
    simp only [tensor_fill, List.mem_map] at hx
    obtain ⟨_, _, rfl⟩ := hx
    rfl

theorem layer_dense_apply_changes_resets_accumulators_witness :
    dense_training_state ex_layer ∧
    ∃ l' wc bc, layer_dense_apply_changes id ex_layer ex_optim = .ok l' ∧
      l'.dense_backend.weight_change.change = some wc ∧
      l'.dense_backend.bias_change.change = some bc ∧
      wc.data.length = ex_layer.dense_backend.weight.data.length ∧
      bc.data.length = ex_layer.dense_backend.bias.data.length ∧
      (∀ x ∈ wc.data, x = 0) ∧ (∀ x ∈ bc.data, x = 0) :=
  ⟨ex_layer_training_state,
    layer_dense_apply_changes_resets_accumulators id ex_layer ex_optim
      ex_layer_training_state⟩


theorem layer_dense_create_result [Zero α] [Sub α] [Mul α] [Div α] [Neg α] [OfScientific α]
    [NatCast α] [LE α] [DecidableRel (fun a b : α => a ≤ b)] (rand : Nat → Nat)
    (RAND_MAX : Nat) (sqrtf logf cos : α → α) (fuel : Nat) (out : layer α)
    (desc : layer_desc) (prev_shape : tensor_shape) (calls : Nat) (l : layer α)
    (calls' : Nat)
    (h : layer_dense_create rand RAND_MAX sqrtf logf cos fuel out desc prev_shape calls
      = .ok (l, calls')) :
    l.training_mode = out.training_mode ∧
    l.shape = ⟨desc.dense.size, 1, 1⟩ ∧
    l.dense_backend.weight.shape = ⟨desc.dense.size, prev_shape.width, 1⟩ ∧
    l.dense_backend.weight.data.length = desc.dense.size * prev_shape.width ∧
    l.dense_backend.bias = tensor_create ⟨desc.dense.size, 1, 1⟩ ∧
    l.dense_backend.weight_transposed =
      tensor_transpose (tensor_copy_ip (tensor_create ⟨desc.dense.size, prev_shape.width, 1⟩)
        l.dense_backend.weight) ∧
    (out.training_mode = true →
      l.dense_backend.weight_change =
        param_change_create param_change_zero ⟨desc.dense.size, prev_shape.width, 1⟩ ∧
      l.dense_backend.bias_change =
        param_change_create param_change_zero ⟨desc.dense.size, 1, 1⟩) := by
  simp only [layer_dense_create, bind, Except.bind, pure, Except.pure] at h
  split at h
  · cases h
  · rename_i r hr
    have hlen := layer_dense_create_loop_length _ _ _ _ _ _ _ _ _ _ _ _ hr
    simp only [Except.ok.injEq, Prod.mk.injEq] at h
    obtain ⟨rfl, _⟩ := h
    refine ⟨rfl, rfl, rfl, ?_, rfl, rfl, fun ht => ?_⟩
    · simpa [tensor_create] using hlen
    · simp [ht]

/-- C10. The cached `weight_transposed` of a Dense layer is the transpose of `weight`.
(1) If every call of `_standard_normal` sees an accepted draw sooner or later, then with
enough fuel `_layer_dense_create` returns a layer whose weight has shape
`(out_size, in_size, 1)` and whose `weight_transposed` has shape `(in_size, out_size, 1)`
with element `(x = i, y = j)` equal to weight element `(x = j, y = i)`; created in
training mode, the layer is in the training state. (2) Whenever `_layer_dense_create`
returns, the same transpose relation holds. (3) For a layer in the training state and
any optimizer, `_layer_dense_apply_changes` returns, the new weight is the one the
optimizer update yields in that call, `weight_transposed` is its transpose, and the layer
stays in the training state. -/
theorem layer_dense_weight_transposed_cached [Zero α] [One α] [Add α] [Sub α] [Mul α]
    [Div α] [Neg α] [OfScientific α] [NatCast α] [Pow α Nat] [LE α]
    [DecidableRel (fun a b : α => a ≤ b)] (rand : Nat → Nat) (RAND_MAX : Nat)
    (sqrtf logf cos : α → α) (out : layer α) (desc : layer_desc) (prev_shape : tensor_shape)
    (calls : Nat)
    (hfair : ∀ c, ∃ k, rand_accepted (α := α) rand RAND_MAX (c + k)) :
    (∃ f0 l calls',
      (∀ fuel, f0 ≤ fuel →
        layer_dense_create rand RAND_MAX sqrtf logf cos fuel out desc prev_shape calls
          = .ok (l, calls')) ∧
      l.dense_backend.weight.shape = ⟨desc.dense.size, prev_shape.width, 1⟩ ∧
      l.dense_backend.weight_transposed.shape = ⟨prev_shape.width, desc.dense.size, 1⟩ ∧
      is_transpose_of l.dense_backend.weight_transposed l.dense_backend.weight ∧
      (out.training_mode = true → dense_training_state l)) ∧
    (∀ fuel l calls',
      layer_dense_create rand RAND_MAX sqrtf logf cos fuel out desc prev_shape calls
          = .ok (l, calls') →
      is_transpose_of l.dense_backend.weight_transposed l.dense_backend.weight) ∧
    (∀ (l : layer α) (optim : optimizer α), dense_training_state l →
      ∃ l' w pc,
        param_change_update sqrtf optim l.dense_backend.weight l.dense_backend.weight_change
          = .ok (w, pc) ∧
        layer_dense_apply_changes sqrtf l optim = .ok l' ∧
        l'.dense_backend.weight = w ∧
        is_transpose_of l'.dense_backend.weight_transposed w ∧
        dense_training_state l') := by
  have hpartial : ∀ fuel l calls',
      layer_dense_create rand RAND_MAX sqrtf logf cos fuel out desc prev_shape calls
          = .ok (l, calls') →
      is_transpose_of l.dense_backend.weight_transposed l.dense_backend.weight := by
    intro fuel l calls' h
    obtain ⟨_, _, hws, hwl, _, hwt, _⟩ := layer_dense_create_result _ _ _ _ _ _ _ _ _ _ _ _ h
    rw [hwt]
    exact tensor_transpose_is_transpose _ _ (by rw [hws]) (by rw [hwl, hws])
  refine ⟨?_, hpartial, ?_⟩
  · obtain ⟨f0, r, _, hr⟩ := layer_dense_create_loop_terminates rand RAND_MAX sqrtf logf cos
      (1.0 / sqrtf (desc.dense.size : α)) hfair
      (ts_shape_size ⟨desc.dense.size, prev_shape.width, 1⟩) 0
      (tensor_create (α := α) ⟨desc.dense.size, prev_shape.width, 1⟩).data calls
      (by simpa [tensor_create] using ts_shape_size_le ⟨desc.dense.size, prev_shape.width, 1⟩)
    have hcreate : ∀ fuel, f0 ≤ fuel → ∃ l,
        layer_dense_create rand RAND_MAX sqrtf logf cos fuel out desc prev_shape calls
          = .ok (l, r.2) ∧ l = ({ out with
            shape := ⟨desc.dense.size, 1, 1⟩
            dense_backend :=
              ⟨⟨⟨desc.dense.size, prev_shape.width, 1⟩, r.1⟩,
                tensor_create ⟨desc.dense.size, 1, 1⟩,
                tensor_transpose (tensor_copy_ip
                  (tensor_create ⟨desc.dense.size, prev_shape.width, 1⟩)
                  ⟨⟨desc.dense.size, prev_shape.width, 1⟩, r.1⟩),
                if out.training_mode then
                  param_change_create param_change_zero ⟨desc.dense.size, prev_shape.width, 1⟩
                else out.dense_backend.weight_change,
                if out.training_mode then
                  param_change_create param_change_zero ⟨desc.dense.size, 1, 1⟩
                else out.dense_backend.bias_change⟩ } : layer α) := by
      intro fuel hf
      refine ⟨_, ?_, rfl⟩
      simp only [layer_dense_create, hr fuel hf, bind, Except.bind, pure, Except.pure]
      rfl
    obtain ⟨l, hl, hleq⟩ := hcreate f0 le_rfl
    refine ⟨f0, l, r.2, fun fuel hf => ?_, ?_⟩
    · obtain ⟨l2, hl2, hleq2⟩ := hcreate fuel hf
      rw [hl2, hleq2, hleq]
    · obtain ⟨htm, _, hws, hwl, hb, hwt, hpc⟩ :=
        layer_dense_create_result _ _ _ _ _ _ _ _ _ _ _ _ hl
      have htr := hpartial _ _ _ hl
      refine ⟨hws, ?_, htr, fun ht => ?_⟩
      · rw [htr.1, hws]
      · obtain ⟨hwc, hbc⟩ := hpc ht
        refine ⟨by rw [htm, ht], by rw [hws], by rw [hwl, hws],
          ⟨_, _, _, by rw [hwc]; rfl, by rw [hwc]; rfl, by rw [hwc]; rfl, ?_, ?_, ?_⟩,
          ⟨_, _, _, by rw [hbc]; rfl, by rw [hbc]; rfl, by rw [hbc]; rfl, ?_, ?_, ?_⟩⟩ <;>
        simp [tensor_create, hwl, hb]
  · intro l optim h
    obtain ⟨w, wpc, b, bpc, wc, bc, hw, _, hwc, hbc, hwcl, hbcl, hws, hwl, hbl,
      ⟨mw, vw, hmw, hvw, hmwl, hvwl⟩, ⟨mb, vb, hmb, hvb, hmbl, hvbl⟩, hl⟩ :=
      layer_dense_apply_changes_spec sqrtf l optim h
    obtain ⟨htm, hd, hlen, _, _⟩ := h
    refine ⟨_, w, wpc, hw, hl, rfl, ?_, ?_⟩
    · exact tensor_transpose_is_transpose _ _ (by rw [hws]; exact hd)
        (by rw [hwl, hws]; exact hlen)
    · refine ⟨htm, by rw [hws]; exact hd, by rw [hwl, hws]; exact hlen,
        ⟨tensor_fill wc 0, mw, vw, rfl, hmw, hvw, ?_, hmwl, hvwl⟩,
        ⟨tensor_fill bc 0, mb, vb, rfl, hmb, hvb, ?_, hmbl, hvbl⟩⟩
      · simp [tensor_fill, hwcl, hwl]
      · simp [tensor_fill, hbcl, hbl]

theorem layer_dense_weight_transposed_cached_witness :
    (∀ c, ∃ k, rand_accepted (α := ℚ) (fun _ => 1) 1 (c + k)) ∧
    ((∃ f0 l calls',
      (∀ fuel, f0 ≤ fuel →
        layer_dense_create (fun _ => 1) 1 id id id fuel ex_layer_blank ⟨⟨2⟩⟩ ⟨3, 1, 1⟩ 0
          = .ok (l, calls')) ∧
      l.dense_backend.weight.shape = ⟨2, 3, 1⟩ ∧
      l.dense_backend.weight_transposed.shape = ⟨3, 2, 1⟩ ∧
      is_transpose_of l.dense_backend.weight_transposed l.dense_backend.weight ∧
      (ex_layer_blank.training_mode = true → dense_training_state l)) ∧
    (∀ fuel l calls',
      layer_dense_create (fun _ => 1) 1 id id id fuel ex_layer_blank ⟨⟨2⟩⟩ ⟨3, 1, 1⟩ 0
          = .ok (l, calls') →
      is_transpose_of l.dense_backend.weight_transposed l.dense_backend.weight) ∧
    (∀ (l : layer ℚ) (optim : optimizer ℚ), dense_training_state l →
      ∃ l' w pc,
        param_change_update id optim l.dense_backend.weight l.dense_backend.weight_change
          = .ok (w, pc) ∧
        layer_dense_apply_changes id l optim = .ok l' ∧
        l'.dense_backend.weight = w ∧
        is_transpose_of l'.dense_backend.weight_transposed w ∧
        dense_training_state l')) :=
  ⟨fun _ => ⟨0, by norm_num [rand_accepted]⟩,
    layer_dense_weight_transposed_cached (fun _ => 1) 1 id id id ex_layer_blank ⟨⟨2⟩⟩
      ⟨3, 1, 1⟩ 0 (fun _ => ⟨0, by norm_num [rand_accepted]⟩)⟩

end claims_dense

/-! ## Lemmas on the tensor operations -/

section tensor_lemmas

variable {α : Type}

theorem tensor_get_of_tensor_at [Zero α] (t : tensor α) (x y : Nat) (v : α)
    (h : tensor_at t x y = some v) : tensor_get t x y = v := by
  unfold tensor_at at h
  simp [tensor_get, List.getD_eq_getElem?_getD, h]

theorem tensor_at_eq_get [Zero α] (t : tensor α) (x y : Nat)
    (h : x + y * t.shape.width < t.data.length) :
    tensor_at t x y = some (tensor_get t x y) := by
  simp [tensor_at, tensor_get, List.getD_eq_getElem?_getD, List.getElem?_eq_getElem h]

theorem index_lt_mul (x y w h : Nat) (hx : x < w) (hy : y < h) : x + y * w < w * h := by
  calc x + y * w < w + y * w := by omega
    _ = w * (y + 1) := by ring
    _ ≤ w * h := Nat.mul_le_mul_left _ hy

theorem tensor_dot_data_length [Zero α] [Add α] [Mul α] (a b : tensor α) :
    (tensor_dot_data a b).length = b.shape.width * a.shape.height := by
  simp [tensor_dot_data]

theorem tensor_dot_data_getElem [Zero α] [Add α] [Mul α] (a b : tensor α) (x y : Nat)
    (hx : x < b.shape.width) (hy : y < a.shape.height) :
    (tensor_dot_data a b)[x + y * b.shape.width]? = some
      ((List.range a.shape.width).map (fun k => tensor_get a k y * tensor_get b x k)).sum := by
  have hidx := index_lt_mul x y _ _ hx hy
  have hdiv : (x + y * b.shape.width) / b.shape.width = y := by
    rw [Nat.add_mul_div_right _ _ (by omega), Nat.div_eq_of_lt hx, Nat.zero_add]
  have hmod : (x + y * b.shape.width) % b.shape.width = x := by
    rw [Nat.add_mul_mod_self_right, Nat.mod_eq_of_lt hx]
  simp [tensor_dot_data, hidx, hdiv, hmod]

theorem zipWith_add_getElem [Add α] (p q : List α) (i : Nat) (hp : i < p.length)
    (hq : i < q.length) :
    (List.zipWith (fun a b => a + b) p q)[i]? = some (p[i] + q[i]) := by
  simp [List.getElem?_zipWith, List.getElem?_eq_getElem hp, List.getElem?_eq_getElem hq]

theorem getD_eq_of_lt [Zero α] (l : List α) (i : Nat) (h : i < l.length) :
    l.getD i 0 = l[i] := by
  simp [List.getD_eq_getElem?_getD, List.getElem?_eq_getElem h]

end tensor_lemmas

/-! ## Lemmas on feedforward and backprop -/

section pass_lemmas

variable {α : Type}

/-- The cache after `_layer_dense_feedforward`: the input on top if a cache is given and
the layer trains, the cache as it was otherwise. -/
theorem layer_dense_feedforward_cache [Zero α] [Add α] [Mul α] (l : layer α)
    (x : tensor α) (cache : Option (layers_cache α)) (err : List ts_error) :
    (layer_dense_feedforward l x cache err).2.2.1 =
      match cache with
      | some c => if l.training_mode then some ⟨x :: c.stack⟩ else some c
      | none => none := by
  cases cache <;> rfl

theorem layer_dense_feedforward_layer [Zero α] [Add α] [Mul α] (l : layer α)
    (x : tensor α) (cache : Option (layers_cache α)) (err : List ts_error) :
    (layer_dense_feedforward l x cache err).1 = l := rfl

theorem layer_dense_feedforward_spec [Zero α] [Add α] [Mul α] (l : layer α)
    (x : tensor α) (cache : Option (layers_cache α)) (err : List ts_error) (m n : Nat)
    (hw : l.dense_backend.weight.shape = ⟨m, n, 1⟩)
    (hb : l.dense_backend.bias.shape = ⟨m, 1, 1⟩) (hx : x.shape = ⟨n, 1, 1⟩) :
    layer_dense_feedforward l x cache err =
      (l, ⟨⟨m, 1, 1⟩, List.zipWith (fun p q => p + q)
          (tensor_dot_data x l.dense_backend.weight) l.dense_backend.bias.data⟩,
        (layer_dense_feedforward l x cache err).2.2.1, err) := by
  have h1 : tensor_dot_ip x x l.dense_backend.weight err =
      (⟨⟨m, 1, 1⟩, tensor_dot_data x l.dense_backend.weight⟩, err) := by
    simp [tensor_dot_ip, hw, hx]
  have h2 : tensor_add_ip (⟨⟨m, 1, 1⟩, tensor_dot_data x l.dense_backend.weight⟩ : tensor α)
      ⟨⟨m, 1, 1⟩, tensor_dot_data x l.dense_backend.weight⟩ l.dense_backend.bias err =
      (⟨⟨m, 1, 1⟩, List.zipWith (fun p q => p + q)
          (tensor_dot_data x l.dense_backend.weight) l.dense_backend.bias.data⟩, err) := by
    simp [tensor_add_ip, hb, ts_tensor_shape_eq]
  simp only [layer_dense_feedforward, h1, h2]

theorem tensor_transpose_row [Zero α] (x : tensor α) (n : Nat) (hx : x.shape = ⟨n, 1, 1⟩) :
    tensor_transpose x = ⟨⟨1, n, 1⟩, (List.range n).map (fun k => x.data.getD k 0)⟩ := by
  simp [tensor_transpose, hx, Nat.mod_one]

theorem layer_dense_backprop_spec [Zero α] [Add α] [Mul α] (l : layer α)
    (delta : tensor α) (c : layers_cache α) (err : List ts_error) (m n : Nat)
    (x : tensor α) (rest : List (tensor α)) (bc wc : tensor α)
    (hl : dense_layer_ready l m n)
    (hbc : l.dense_backend.bias_change.change = some bc)
    (hwc : l.dense_backend.weight_change.change = some wc)
    (hc : c.stack = x :: rest) (hx : x.shape = ⟨n, 1, 1⟩)
    (hd : delta.shape = ⟨m, 1, 1⟩) :
    layer_dense_backprop l delta (some c) err = .ok
      ({ l with dense_backend :=
          { l.dense_backend with
            bias_change := { l.dense_backend.bias_change with
              change := some ⟨⟨m, 1, 1⟩, List.zipWith (fun p q => p + q) bc.data delta.data⟩ }
            weight_change := { l.dense_backend.weight_change with
              change := some ⟨⟨m, n, 1⟩, List.zipWith (fun p q => p + q) wc.data
                (tensor_dot_data (tensor_transpose x) delta)⟩ } } },
        ⟨⟨n, 1, 1⟩, tensor_dot_data delta l.dense_backend.weight_transposed⟩,
        some ⟨rest⟩, err) := by
  obtain ⟨_, hws, _, _, _, htr, _, ⟨wc', hwc', hwcs, _⟩, ⟨bc', hbc', hbcs, _⟩⟩ := hl
  rw [hwc] at hwc'; cases hwc'
  rw [hbc] at hbc'; cases hbc'
  have hwts : l.dense_backend.weight_transposed.shape = ⟨n, m, 1⟩ := by
    rw [htr.1, hws]
  have h1 : tensor_add_ip bc bc delta err =
      (⟨⟨m, 1, 1⟩, List.zipWith (fun p q => p + q) bc.data delta.data⟩, err) := by
    simp [tensor_add_ip, hbcs, hd, ts_tensor_shape_eq]
  have hpop : layers_cache_pop c = (some x, ⟨rest⟩) := by
    simp [layers_cache_pop, hc]
  have hxt := tensor_transpose_row x n hx
  have h2 : tensor_dot (tensor_transpose x) delta err =
      (some ⟨⟨m, n, 1⟩, tensor_dot_data (tensor_transpose x) delta⟩, err) := by
    simp [tensor_dot, hxt, hd]
  have h3 : tensor_add_ip wc wc
      (⟨⟨m, n, 1⟩, tensor_dot_data (tensor_transpose x) delta⟩ : tensor α) err =
      (⟨⟨m, n, 1⟩, List.zipWith (fun p q => p + q) wc.data
        (tensor_dot_data (tensor_transpose x) delta)⟩, err) := by
    simp [tensor_add_ip, hwcs, ts_tensor_shape_eq]
  have h4 : tensor_dot_ip delta delta l.dense_backend.weight_transposed err =
      (⟨⟨n, 1, 1⟩, tensor_dot_data delta l.dense_backend.weight_transposed⟩, err) := by
    simp [tensor_dot_ip, hwts, hd]
  simp only [layer_dense_backprop, hbc, hwc, deref, h1, hpop, h2, h3, h4, bind, Except.bind,
    pure, Except.pure]

theorem outer_product_getElem [Semiring α] (x delta : tensor α) (m n i j : Nat)
    (hx : x.shape = ⟨n, 1, 1⟩) (hd : delta.shape = ⟨m, 1, 1⟩) (hi : i < n) (hj : j < m) :
    (tensor_dot_data (tensor_transpose x) delta)[j + i * m]? =
      some (tensor_get x i 0 * tensor_get delta j 0) := by
  have hxt := tensor_transpose_row x n hx
  have h := tensor_dot_data_getElem (tensor_transpose x) delta j i
    (by rw [hd]; exact hj) (by rw [hxt]; exact hi)
  rw [hd] at h
  rw [h, hxt]
  have hr : (List.range n)[i]? = some i := by
    rw [List.getElem?_eq_getElem (by simpa using hi)]; simp
  have h1 : List.range 1 = [0] := rfl
  simp [tensor_get, hd, hx, h1, hr]

theorem delta_product_getElem [Zero α] [Add α] [Mul α] (delta w wt : tensor α)
    (m n i : Nat) (hw : w.shape = ⟨m, n, 1⟩) (htr : is_transpose_of wt w)
    (hd : delta.shape = ⟨m, 1, 1⟩) (hi : i < n) :
    (tensor_dot_data delta wt)[i]? = some
      ((List.range m).map (fun j => tensor_get delta j 0 * tensor_get w j i)).sum := by
  have hwts : wt.shape = ⟨n, m, 1⟩ := by rw [htr.1, hw]
  have h := tensor_dot_data_getElem delta wt i 0 (by rw [hwts]; exact hi)
    (by rw [hd]; exact Nat.one_pos)
  simp only [Nat.zero_mul, Nat.add_zero, hd] at h
  rw [h]
  congr 2
  apply List.map_congr_left
  intro j hj
  have hjm : j < m := List.mem_range.1 hj
  obtain ⟨v, h1, h2⟩ := htr.2 i j (by rw [hw]; exact hi) (by rw [hw]; exact hjm)
  rw [tensor_get_of_tensor_at _ _ _ _ h1, tensor_get_of_tensor_at _ _ _ _ h2]

theorem layer_dense_backprop_shape [Zero α] [Add α] [Mul α] (l : layer α)
    (delta : tensor α) (cache : Option (layers_cache α)) (err : List ts_error)
    (r : layer α × tensor α × Option (layers_cache α) × List ts_error)
    (h : layer_dense_backprop l delta cache err = .ok r) :
    r.1.shape = l.shape ∧ r.1.training_mode = l.training_mode := by
  unfold layer_dense_backprop at h
  cases hbc : l.dense_backend.bias_change.change with
  | none => simp [hbc, deref, bind, Except.bind] at h
  | some bc =>
    cases cache with
    | none => simp [hbc, deref, bind, Except.bind] at h
    | some c =>
      cases hpop : (layers_cache_pop c).1 with
      | none => simp [hbc, hpop, deref, bind, Except.bind] at h
      | some x =>
        cases hwc : l.dense_backend.weight_change.change with
        | none => simp [hbc, hpop, hwc, deref, bind, Except.bind] at h
        | some wc =>
          cases hdot : (tensor_dot (tensor_transpose x) delta
              (tensor_add_ip bc bc delta err).2).1 with
          | none => simp [hbc, hpop, hwc, hdot, deref, bind, Except.bind] at h
          | some cur =>
            simp only [hbc, hpop, hwc, hdot, deref, bind, Except.bind, pure, Except.pure,
              Except.ok.injEq] at h
            rw [← h]
            exact ⟨rfl, rfl⟩

theorem layer_dense_apply_changes_shape [Zero α] [One α] [Add α] [Sub α] [Mul α] [Div α]
    [Pow α Nat] (sqrtf : α → α) (l l' : layer α) (optim : optimizer α)
    (h : layer_dense_apply_changes sqrtf l optim = .ok l') :
    l'.shape = l.shape ∧ l'.training_mode = l.training_mode := by
  unfold layer_dense_apply_changes at h
  cases h1 : param_change_update sqrtf optim l.dense_backend.weight
      l.dense_backend.weight_change with
  | error e => simp [h1, bind, Except.bind] at h
  | ok r1 =>
    cases h2 : param_change_update sqrtf optim l.dense_backend.bias
        l.dense_backend.bias_change with
    | error e => simp [h1, h2, bind, Except.bind] at h
    | ok r2 =>
      cases h3 : r1.2.change with
      | none => simp [h1, h2, h3, deref, bind, Except.bind] at h
      | some wc =>
        cases h4 : r2.2.change with
        | none => simp [h1, h2, h3, h4, deref, bind, Except.bind] at h
        | some bc =>
          simp only [h1, h2, h3, h4, deref, bind, Except.bind, pure, Except.pure,
            Except.ok.injEq] at h
          rw [← h]
          exact ⟨rfl, rfl⟩

end pass_lemmas

/-! ## Lemmas on created layers -/

section create_lemmas

variable {α : Type}

theorem ex_rand_accepts : ¬ ((((1 : ℕ) : ℚ) / ((1 : ℕ) : ℚ)) * 2.0 - 1.0 ≤ (1e-6 : ℚ)) := by norm_num
theorem ex_standard_normal_loop : ∀ c, standard_normal_loop (α := ℚ) (fun _ => 1) 1 1e-6 1 c
      = .ok (((1 : ℕ) : ℚ) / ((1 : ℕ) : ℚ) * 2.0 - 1.0, c + 1) := by
    intro c
    simp only [standard_normal_loop, if_neg ex_rand_accepts]
theorem ex_standard_normal : ∀ c, standard_normal (α := ℚ) (fun _ => 1) 1 (fun _ => 1) (fun _ => 0) (fun _ => 1) 1 c
      = .ok (1, c + 2) := by
    intro c
    unfold standard_normal
    simp only [ex_standard_normal_loop]
    simp only [bind, Except.bind]
    simp only [pure, Except.pure, mul_one]
theorem ex_create_loop : layer_dense_create_loop (α := ℚ) (fun _ => 1) 1 (fun _ => 1) (fun _ => 0) (fun _ => 1) 1 (1.0 / 1) 6 0 ([0,0,0,0,0,0], 0) = .ok ([1,1,1,1,1,1], 12) := by
  simp [layer_dense_create_loop, ex_standard_normal, store, load, bind, Except.bind]
  norm_num
theorem ex_layer_created_eq : layer_dense_create (fun _ => 1) 1 (fun _ => 1) (fun _ => 0) (fun _ => 1) 1 ex_layer_blank ⟨⟨2⟩⟩ ⟨3, 1, 1⟩ 0 = .ok (ex_layer_created, 12) := by
  have hsz : ts_shape_size ⟨2, 3, 1⟩ = 6 := by norm_num [ts_shape_size]
  unfold layer_dense_create
  simp only [hsz, tensor_create, List.replicate, Nat.reduceMul, ex_create_loop, bind, Except.bind]
  simp [pure, Except.pure, ex_layer_created, ex_layer_blank, tensor_transpose, tensor_copy_ip,
    param_change_create, param_change_zero, tensor_create, List.range, List.range.loop]

theorem layer_dense_create_ready [Zero α] [Sub α] [Mul α] [Div α] [Neg α] [OfScientific α]
    [NatCast α] [LE α] [DecidableRel (fun a b : α => a ≤ b)] (rand : Nat → Nat)
    (RAND_MAX : Nat) (sqrtf logf cos : α → α) (fuel : Nat) (out : layer α)
    (desc : layer_desc) (prev_shape : tensor_shape) (calls : Nat) (l : layer α)
    (calls' : Nat) (htm : out.training_mode = true)
    (h : layer_dense_create rand RAND_MAX sqrtf logf cos fuel out desc prev_shape calls
      = .ok (l, calls')) :
    dense_layer_ready l desc.dense.size prev_shape.width := by
  obtain ⟨htm', _, hws, hwl, hb, hwt, hpc⟩ :=
    layer_dense_create_result _ _ _ _ _ _ _ _ _ _ _ _ h
  obtain ⟨hwc, hbc⟩ := hpc htm
  have htr : is_transpose_of l.dense_backend.weight_transposed l.dense_backend.weight := by
    rw [hwt]
    exact tensor_transpose_is_transpose _ _ (by rw [hws]) (by rw [hwl, hws])
  refine ⟨by rw [htm', htm], hws, hwl, by rw [hb]; rfl, by rw [hb]; simp [tensor_create],
    htr, ?_, ⟨_, by rw [hwc]; rfl, rfl, by simp [tensor_create]⟩,
    ⟨_, by rw [hbc]; rfl, rfl, by simp [tensor_create]⟩⟩
  rw [hwt]
  simp [tensor_transpose, tensor_copy_ip, hws, Nat.mul_comm]

theorem layer_dense_create_returns [Zero α] [Sub α] [Mul α] [Div α] [Neg α]
    [OfScientific α] [NatCast α] [LE α] [DecidableRel (fun a b : α => a ≤ b)]
    (rand : Nat → Nat) (RAND_MAX : Nat) (sqrtf logf cos : α → α) (out : layer α)
    (desc : layer_desc) (prev_shape : tensor_shape) (calls : Nat)
    (hfair : ∀ c, ∃ k, rand_accepted (α := α) rand RAND_MAX (c + k)) :
    ∃ f0 l calls', ∀ fuel, f0 ≤ fuel →
      layer_dense_create rand RAND_MAX sqrtf logf cos fuel out desc prev_shape calls
        = .ok (l, calls') := by
  obtain ⟨f0, r, _, hr⟩ := layer_dense_create_loop_terminates rand RAND_MAX sqrtf logf cos
    (1.0 / sqrtf (desc.dense.size : α)) hfair
    (ts_shape_size ⟨desc.dense.size, prev_shape.width, 1⟩) 0
    (tensor_create (α := α) ⟨desc.dense.size, prev_shape.width, 1⟩).data calls
    (by simpa [tensor_create] using ts_shape_size_le ⟨desc.dense.size, prev_shape.width, 1⟩)
  have h0 : ∃ l, layer_dense_create rand RAND_MAX sqrtf logf cos f0 out desc prev_shape calls
      = .ok (l, r.2) := by
    simp only [layer_dense_create, hr f0 le_rfl, bind, Except.bind, pure, Except.pure]
    exact ⟨_, rfl⟩
  obtain ⟨l, hl⟩ := h0
  refine ⟨f0, l, r.2, fun fuel hf => ?_⟩
  rw [← hl]
  simp only [layer_dense_create, hr fuel hf, hr f0 le_rfl]

end create_lemmas

/-! ## Lemmas on a batch of backprop runs -/

section batch_lemmas

variable {α : Type}

/-- One `_layer_dense_backprop` on a ready layer: it returns, the layer stays ready, the
parameters are unchanged and each gradient-sum element grows by the sample's term. -/
theorem layer_dense_backprop_step [Semiring α] (l : layer α) (m n : Nat)
    (x d bc wc : tensor α) (err : List ts_error)
    (hl : dense_layer_ready l m n)
    (hbc : l.dense_backend.bias_change.change = some bc)
    (hwc : l.dense_backend.weight_change.change = some wc)
    (hx : x.shape = ⟨n, 1, 1⟩) (hd : d.shape = ⟨m, 1, 1⟩) (hdl : d.data.length = m) :
    ∃ l' d' bc' wc',
      layer_dense_backprop l d (some ⟨[x]⟩) err = .ok (l', d', some ⟨[]⟩, err) ∧
      dense_layer_ready l' m n ∧
      l'.dense_backend.bias_change.change = some bc' ∧
      l'.dense_backend.weight_change.change = some wc' ∧
      l'.dense_backend.weight = l.dense_backend.weight ∧
      l'.dense_backend.bias = l.dense_backend.bias ∧
      l'.dense_backend.weight_transposed = l.dense_backend.weight_transposed ∧
      (∀ j, j < m → tensor_get bc' j 0 = tensor_get bc j 0 + tensor_get d j 0) ∧
      (∀ i j, i < n → j < m →
        tensor_get wc' j i = tensor_get wc j i + tensor_get x i 0 * tensor_get d j 0) := by
  have hspec := layer_dense_backprop_spec l d ⟨[x]⟩ err m n x [] bc wc hl hbc hwc rfl hx hd
  obtain ⟨htm, hws, hwl, hbs, hbl, htr, hwtl, ⟨wc', hwc', hwcs, hwcl⟩,
    ⟨bc', hbc', hbcs, hbcl⟩⟩ := hl
  rw [hwc] at hwc'; cases hwc'
  rw [hbc] at hbc'; cases hbc'
  have hdotl : (tensor_dot_data (tensor_transpose x) d).length = m * n := by
    rw [tensor_dot_data_length, hd, tensor_transpose_row x n hx]
  refine ⟨_, _, _, _, hspec, ?_, rfl, rfl, rfl, rfl, rfl, ?_, ?_⟩
  · exact ⟨htm, hws, hwl, hbs, hbl, htr, hwtl,
      ⟨_, rfl, rfl, by simp [hwcl, hdotl]⟩, ⟨_, rfl, rfl, by simp [hbcl, hdl]⟩⟩
  · intro j hj
    have h1 : j < bc.data.length := by rw [hbcl]; exact hj
    have h2 : j < d.data.length := by rw [hdl]; exact hj
    simp [tensor_get, zipWith_add_getElem _ _ j h1 h2,
      List.getElem?_eq_getElem h1, List.getElem?_eq_getElem h2]
  · intro i j hi hj
    have hidx : j + i * m < m * n := index_lt_mul j i m n hj hi
    have h1 : j + i * m < wc.data.length := by rw [hwcl]; exact hidx
    have h2 : j + i * m < (tensor_dot_data (tensor_transpose x) d).length := by
      rw [hdotl]; exact hidx
    have h3 := outer_product_getElem x d m n i j hx hd hi hj
    rw [List.getElem?_eq_getElem h2] at h3
    simp only [Option.some.injEq] at h3
    simp [tensor_get, hwcs, zipWith_add_getElem _ _ _ h1 h2,
      List.getElem?_eq_getElem h1, h3]

/-- A batch of `_layer_dense_backprop` runs on a ready layer: it returns, and each
gradient-sum element is its initial value plus the sum of the samples' terms. -/
theorem layer_dense_backprop_batch_spec [Semiring α] (m n : Nat) (err : List ts_error) :
    ∀ (samples : List (tensor α × tensor α)) (l : layer α) (bc wc : tensor α),
      dense_layer_ready l m n →
      l.dense_backend.bias_change.change = some bc →
      l.dense_backend.weight_change.change = some wc →
      (∀ s ∈ samples, s.1.shape = ⟨n, 1, 1⟩ ∧ s.2.shape = ⟨m, 1, 1⟩ ∧ s.2.data.length = m) →
      ∃ l' bc' wc',
        layer_dense_backprop_batch l samples err = .ok (l', err) ∧
        dense_layer_ready l' m n ∧
        l'.dense_backend.bias_change.change = some bc' ∧
        l'.dense_backend.weight_change.change = some wc' ∧
        l'.dense_backend.weight = l.dense_backend.weight ∧
        l'.dense_backend.bias = l.dense_backend.bias ∧
        (∀ j, j < m → tensor_get bc' j 0 =
          tensor_get bc j 0 + (samples.map (fun s => tensor_get s.2 j 0)).sum) ∧
        (∀ i j, i < n → j < m → tensor_get wc' j i =
          tensor_get wc j i +
            (samples.map (fun s => tensor_get s.1 i 0 * tensor_get s.2 j 0)).sum) := by
  intro samples
  induction samples with
  | nil =>
    intro l bc wc hl hbc hwc _
    exact ⟨l, bc, wc, rfl, hl, hbc, hwc, rfl, rfl, by simp, by simp⟩
  | cons s rest ih =>
    intro l bc wc hl hbc hwc hs
    obtain ⟨hx, hd, hdl⟩ := hs s (List.mem_cons_self _ _)
    obtain ⟨l1, d1, bc1, wc1, hstep, hl1, hbc1, hwc1, hw1, hb1, _, hbj, hwj⟩ :=
      layer_dense_backprop_step l m n s.1 s.2 bc wc err hl hbc hwc hx hd hdl
    obtain ⟨l2, bc2, wc2, hrest, hl2, hbc2, hwc2, hw2, hb2, hbj2, hwj2⟩ :=
      ih l1 bc1 wc1 hl1 hbc1 hwc1 (fun t ht => hs t (List.mem_cons_of_mem _ ht))
    refine ⟨l2, bc2, wc2, ?_, hl2, hbc2, hwc2, by rw [hw2, hw1], by rw [hb2, hb1], ?_, ?_⟩
    · obtain ⟨x, d⟩ := s
      simp only [layer_dense_backprop_batch, hstep, bind, Except.bind]
      exact hrest
    · intro j hj
      rw [hbj2 j hj, hbj j hj, List.map_cons, List.sum_cons, add_assoc]
    · intro i j hi hj
      rw [hwj2 i j hi hj, hwj i j hi hj, List.map_cons, List.sum_cons, add_assoc]

/-- Two tensors of one shape whose buffers have `w * h` elements and agree at every
column and row are equal. -/
theorem tensor_ext_of_get [Zero α] (a b : tensor α) (w h : Nat)
    (hs : a.shape = b.shape) (hw : a.shape.width = w)
    (hal : a.data.length = w * h) (hbl : b.data.length = w * h)
    (hget : ∀ i j, i < h → j < w → tensor_get a j i = tensor_get b j i) : a = b := by
  obtain ⟨sa, da⟩ := a
  obtain ⟨sb, db⟩ := b
  simp only at hs hw hal hbl
  subst hs
  congr 1
  apply List.ext_getElem (by rw [hal, hbl])
  intro k hka hkb
  have hk : k < w * h := by rw [← hal]; exact hka
  have hwpos : 0 < w := by
    rcases Nat.eq_zero_or_pos w with h0 | h0
    · simp [h0] at hk
    · exact h0
  have hi : k / w < h := by
    rw [Nat.div_lt_iff_lt_mul hwpos]; rwa [Nat.mul_comm] at hk
  have hj : k % w < w := Nat.mod_lt _ hwpos
  have hkeq : k % w + k / w * w = k := by
    rw [Nat.add_comm]; exact Nat.div_add_mod' k w
  have := hget (k / w) (k % w) hi hj
  simp only [tensor_get, hw, hkeq] at this
  rwa [getD_eq_of_lt _ _ hka, getD_eq_of_lt _ _ hkb] at this

end batch_lemmas

/-! ## Lemmas on the MeanSquaredError cost -/

section mse_lemmas

variable {α : Type}

theorem mean_squared_func_eq [Field α] (pred target : ts_tensor α)
    (hp : pred.valid) (hl : pred.data.length = target.data.length) :
    mean_squared_func pred target = .ok
      ((List.zipWith (fun p t => 0.5 * (p - t) ^ 2) pred.data target.data).sum /
        (pred.data.length : α)) := by
  have hloop := mean_squared_func_loop_spec pred.data target.data pred.data.length 0 0
    (by simp) hl
  have hfun : (fun (p t : α) => 0.5 * (p - t) * (p - t)) = fun p t => 0.5 * (p - t) ^ 2 := by
    funext p t; ring
  simp [mean_squared_func, ts_shape_size_valid pred hp, hloop, bind, Except.bind, pure,
    Except.pure, foldl_add_eq_sum, hfun]

theorem ts_cost_func_mean_squared_dispatch [Field α] (logf : α → α)
    (pred target : ts_tensor α) (err : List ts_error) (hshape : pred.shape = target.shape)
    (v : α) (hv : mean_squared_func pred target = .ok v) :
    ts_cost_func logf TS_COST_MEAN_SQUARED_ERROR (some pred) (some target) err
      = .ok (v, err) := by
  have hse : ts_tensor_shape_eq pred.shape target.shape = true :=
    (ts_tensor_shape_eq_iff _ _).2 hshape
  simp [ts_cost_func, TS_COST_MEAN_SQUARED_ERROR, TS_COST_COUNT, deref, hse, costs, load, hv,
    bind, Except.bind, pure, Except.pure]

theorem half_squares_sum_nonneg [LinearOrderedField α] :
    ∀ (p t : List α), 0 ≤ (List.zipWith (fun p t => 0.5 * (p - t) ^ 2) p t).sum
  | [], _ => by simp
  | _ :: _, [] => by simp
  | a :: p, b :: t => by
    have h1 : (0 : α) ≤ 0.5 * (a - b) ^ 2 := by positivity
    have h2 := half_squares_sum_nonneg p t
    simp only [List.zipWith_cons_cons, List.sum_cons]
    linarith

theorem half_squares_sum_eq_zero_iff [LinearOrderedField α] :
    ∀ (p t : List α), p.length = t.length →
      ((List.zipWith (fun p t => 0.5 * (p - t) ^ 2) p t).sum = 0 ↔ p = t)
  | [], [], _ => by simp
  | [], _ :: _, h => by simp at h
  | _ :: _, [], h => by simp at h
  | a :: p, b :: t, h => by
    have hlen : p.length = t.length := by simpa using h
    have ih := half_squares_sum_eq_zero_iff p t hlen
    have h1 : (0 : α) ≤ 0.5 * (a - b) ^ 2 := by positivity
    have h2 := half_squares_sum_nonneg p t
    simp only [List.zipWith_cons_cons, List.sum_cons, List.cons.injEq]
    constructor
    · intro hsum
      have ha : 0.5 * (a - b) ^ 2 = 0 := by linarith
      have hs : (List.zipWith (fun p t => 0.5 * (p - t) ^ 2) p t).sum = 0 := by linarith
      refine ⟨?_, ih.1 hs⟩
      have h5 : (0.5 : α) ≠ 0 := by norm_num
      have : (a - b) ^ 2 = 0 := by
        rcases mul_eq_zero.1 ha with h | h
        · exact absurd h h5
        · exact h
      have : a - b = 0 := by simpa using this
      linarith
    · rintro ⟨rfl, rfl⟩
      rw [ih.2 rfl]
      simp

theorem half_squares_set_hasDerivAt :
    ∀ (p t : List ℝ) (i : Nat) (_ : i < p.length) (hi' : i < t.length) (x0 : ℝ),
      HasDerivAt (fun x => (List.zipWith (fun a b => 0.5 * (a - b) ^ 2) (p.set i x) t).sum)
        (x0 - t[i]) x0
  | [], _, _, h, _, _ => by simp at h
  | _ :: _, [], _, _, h, _ => by simp at h
  | a :: p, b :: t, 0, _, _, x0 => by
    simp only [List.set_cons_zero, List.zipWith_cons_cons, List.sum_cons,
      List.getElem_cons_zero]
    have h1 : HasDerivAt (fun x : ℝ => 0.5 * (x - b) ^ 2) (x0 - b) x0 := by
      have := ((hasDerivAt_id x0).sub_const b).pow 2
      have h2 := this.const_mul (0.5 : ℝ)
      convert h2 using 1
      simp only [id]
      ring
    simpa using h1.add_const _
  | a :: p, b :: t, i + 1, h, h', x0 => by
    simp only [List.set_cons_succ, List.zipWith_cons_cons, List.sum_cons,
      List.getElem_cons_succ]
    have ih := half_squares_set_hasDerivAt p t i (by simpa using h) (by simpa using h') x0
    simpa using ih.const_add (0.5 * (a - b) ^ 2)

end mse_lemmas

/-! ## Claims on feedforward and backprop -/

section claims_backprop

variable {α : Type}

theorem ex_layer_ready : dense_layer_ready ex_layer 2 3 := by
  refine ⟨rfl, rfl, rfl, rfl, rfl, ⟨rfl, ?_⟩, rfl, ⟨_, rfl, rfl, rfl⟩, ⟨_, rfl, rfl, rfl⟩⟩
  intro i j hi hj
  have hi' : i < 3 := hi
  have hj' : j < 2 := hj
  interval_cases i <;> interval_cases j <;> exact ⟨_, rfl, rfl⟩

/-- C11. For a Dense layer in training mode with weight shape `(m, n, 1)`, a cached input
`x` of shape `(n, 1, 1)` on top of the cache and an incoming delta `d` of shape
`(m, 1, 1)`, `_layer_dense_backprop` returns without error, pops `x`, and (1) bias
accumulator element `j` becomes `old + d[j]`, (2) weight accumulator element
`(x = j, y = i)` becomes `old + x[i] * d[j]`, (3) the new delta has shape `(n, 1, 1)` and
element `i` equal to the sum over `j < m` of `d[j] * weight(x = j, y = i)`; (1) and (2)
use the incoming delta. Weight, bias and `weight_transposed` are unchanged. -/
theorem layer_dense_backprop_computes [Semiring α] (l : layer α) (delta : tensor α)
    (c : layers_cache α) (err : List ts_error) (m n : Nat) (x : tensor α)
    (rest : List (tensor α)) (bc wc : tensor α)
    (hl : dense_layer_ready l m n)
    (hbc : l.dense_backend.bias_change.change = some bc)
    (hwc : l.dense_backend.weight_change.change = some wc)
    (hc : c.stack = x :: rest) (hx : x.shape = ⟨n, 1, 1⟩)
    (hd : delta.shape = ⟨m, 1, 1⟩) (hdl : delta.data.length = m) :
    ∃ l' delta' bc' wc',
      layer_dense_backprop l delta (some c) err = .ok (l', delta', some ⟨rest⟩, err) ∧
      l'.dense_backend.bias_change.change = some bc' ∧
      l'.dense_backend.weight_change.change = some wc' ∧
      bc'.shape = ⟨m, 1, 1⟩ ∧ wc'.shape = ⟨m, n, 1⟩ ∧ delta'.shape = ⟨n, 1, 1⟩ ∧
      (∀ j, j < m → tensor_at bc' j 0 = some (tensor_get bc j 0 + tensor_get delta j 0)) ∧
      (∀ i j, i < n → j < m → tensor_at wc' j i =
        some (tensor_get wc j i + tensor_get x i 0 * tensor_get delta j 0)) ∧
      (∀ i, i < n → tensor_at delta' i 0 = some
        ((List.range m).map (fun j =>
          tensor_get delta j 0 * tensor_get l.dense_backend.weight j i)).sum) ∧
      l'.dense_backend.weight = l.dense_backend.weight ∧
      l'.dense_backend.bias = l.dense_backend.bias ∧
      l'.dense_backend.weight_transposed = l.dense_backend.weight_transposed := by
  have hspec := layer_dense_backprop_spec l delta c err m n x rest bc wc hl hbc hwc hc hx hd
  obtain ⟨_, hws, _, _, _, htr, _, ⟨wc', hwc', hwcs, hwcl⟩, ⟨bc', hbc', hbcs, hbcl⟩⟩ := hl
  rw [hwc] at hwc'; cases hwc'
  rw [hbc] at hbc'; cases hbc'
  refine ⟨_, _, _, _, hspec, rfl, rfl, rfl, rfl, rfl, ?_, ?_, ?_, rfl, rfl, rfl⟩
  · intro j hj
    have h1 : j < bc.data.length := by rw [hbcl]; exact hj
    have h2 : j < delta.data.length := by rw [hdl]; exact hj
    simp [tensor_at, tensor_get, zipWith_add_getElem _ _ j h1 h2,
      List.getElem?_eq_getElem h1, List.getElem?_eq_getElem h2]
  · intro i j hi hj
    have hidx : j + i * m < m * n := index_lt_mul j i m n hj hi
    have h1 : j + i * m < wc.data.length := by rw [hwcl]; exact hidx
    have h2 : j + i * m < (tensor_dot_data (tensor_transpose x) delta).length := by
      rw [tensor_dot_data_length, hd, tensor_transpose_row x n hx]; exact hidx
    have h3 := outer_product_getElem x delta m n i j hx hd hi hj
    rw [List.getElem?_eq_getElem h2] at h3
    simp only [Option.some.injEq] at h3
    simp [tensor_at, tensor_get, hwcs, zipWith_add_getElem _ _ _ h1 h2,
      List.getElem?_eq_getElem h1, h3]
  · intro i hi
    have h := delta_product_getElem delta l.dense_backend.weight
      l.dense_backend.weight_transposed m n i hws htr hd hi
    simpa [tensor_at] using h

theorem layer_dense_backprop_computes_witness :
    (dense_layer_ready ex_layer 2 3 ∧
      ex_layer.dense_backend.bias_change.change = some ⟨⟨2, 1, 1⟩, [1, 1]⟩ ∧
      ex_layer.dense_backend.weight_change.change = some ⟨⟨2, 3, 1⟩, [1, 1, 1, 1, 1, 1]⟩ ∧
      (⟨[ex_input]⟩ : layers_cache ℚ).stack = ex_input :: [] ∧
      ex_input.shape = ⟨3, 1, 1⟩ ∧ ex_delta.shape = ⟨2, 1, 1⟩ ∧ ex_delta.data.length = 2) ∧
    ∃ l' delta' bc' wc',
      layer_dense_backprop ex_layer ex_delta (some ⟨[ex_input]⟩) []
        = .ok (l', delta', some ⟨[]⟩, []) ∧
      l'.dense_backend.bias_change.change = some bc' ∧
      l'.dense_backend.weight_change.change = some wc' ∧
      bc'.shape = ⟨2, 1, 1⟩ ∧ wc'.shape = ⟨2, 3, 1⟩ ∧ delta'.shape = ⟨3, 1, 1⟩ ∧
      (∀ j, j < 2 → tensor_at bc' j 0 =
        some (tensor_get ⟨⟨2, 1, 1⟩, [1, 1]⟩ j 0 + tensor_get ex_delta j 0)) ∧
      (∀ i j, i < 3 → j < 2 → tensor_at wc' j i =
        some (tensor_get ⟨⟨2, 3, 1⟩, [1, 1, 1, 1, 1, 1]⟩ j i
          + tensor_get ex_input i 0 * tensor_get ex_delta j 0)) ∧
      (∀ i, i < 3 → tensor_at delta' i 0 = some
        ((List.range 2).map (fun j =>
          tensor_get ex_delta j 0 * tensor_get ex_layer.dense_backend.weight j i)).sum) ∧
      l'.dense_backend.weight = ex_layer.dense_backend.weight ∧
      l'.dense_backend.bias = ex_layer.dense_backend.bias ∧
      l'.dense_backend.weight_transposed = ex_layer.dense_backend.weight_transposed :=
  ⟨⟨ex_layer_ready, rfl, rfl, rfl, rfl, rfl, rfl⟩,
    layer_dense_backprop_computes ex_layer ex_delta ⟨[ex_input]⟩ [] 2 3 ex_input []
      ⟨⟨2, 1, 1⟩, [1, 1]⟩ ⟨⟨2, 3, 1⟩, [1, 1, 1, 1, 1, 1]⟩ ex_layer_ready rfl rfl rfl rfl rfl
      rfl⟩

end claims_backprop

section claims_round_trip

variable {α : Type}

/-- C12. For a Dense layer that `_layer_dense_create` returned in training mode for the
parent shape `(n, 1, 1)` and size `m`, an input of shape `(n, 1, 1)`, any cache and a
delta of the shape of the feedforward output: `_layer_dense_feedforward` returns an
output of shape `(m, 1, 1)`, `_layer_dense_backprop` then returns, the delta it leaves
has the shape of the input, and the error log is unchanged all along, so no tensor
operation met a shape mismatch. -/
theorem layer_dense_round_trip_shape [Zero α] [Add α] [Sub α] [Mul α] [Div α] [Neg α]
    [OfScientific α] [NatCast α] [LE α] [DecidableRel (fun a b : α => a ≤ b)]
    (rand : Nat → Nat) (RAND_MAX : Nat) (sqrtf logf cos : α → α) (fuel : Nat)
    (out : layer α) (desc : layer_desc) (n calls : Nat) (l : layer α) (calls' : Nat)
    (x delta : tensor α) (c : layers_cache α) (err : List ts_error)
    (htm : out.training_mode = true)
    (hcreate : layer_dense_create rand RAND_MAX sqrtf logf cos fuel out desc ⟨n, 1, 1⟩ calls
      = .ok (l, calls'))
    (hx : x.shape = ⟨n, 1, 1⟩)
    (hd : delta.shape = (layer_dense_feedforward l x (some c) err).2.1.shape) :
    ∃ out_t c1 l' delta',
      layer_dense_feedforward l x (some c) err = (l, out_t, some c1, err) ∧
      out_t.shape = ⟨desc.dense.size, 1, 1⟩ ∧
      layer_dense_backprop l delta (some c1) err = .ok (l', delta', some c, err) ∧
      delta'.shape = x.shape := by
  have hl := layer_dense_create_ready _ _ _ _ _ _ _ _ _ _ _ _ htm hcreate
  have hff := layer_dense_feedforward_spec l x (some c) err desc.dense.size n hl.2.1
    hl.2.2.2.1 hx
  have hcache := layer_dense_feedforward_cache l x (some c) err
  simp only [hl.1, if_true] at hcache
  rw [hcache] at hff
  rw [hff] at hd
  obtain ⟨wc, hwc, _, _⟩ := hl.2.2.2.2.2.2.2.1
  obtain ⟨bc, hbc, _, _⟩ := hl.2.2.2.2.2.2.2.2
  have hbp := layer_dense_backprop_spec l delta ⟨x :: c.stack⟩ err desc.dense.size n x
    c.stack bc wc hl hbc hwc rfl hx hd
  exact ⟨_, _, _, _, hff, rfl, hbp, hx.symm⟩

theorem layer_dense_round_trip_shape_witness :
    (ex_layer_blank.training_mode = true ∧
      layer_dense_create (fun _ => 1) 1 (fun _ => 1) (fun _ => 0) (fun _ => 1) 1
        ex_layer_blank ⟨⟨2⟩⟩ ⟨3, 1, 1⟩ 0 = .ok (ex_layer_created, 12) ∧
      ex_input.shape = ⟨3, 1, 1⟩ ∧
      ex_delta.shape = (layer_dense_feedforward ex_layer_created ex_input (some ⟨[]⟩) []).2.1.shape) ∧
    ∃ out_t c1 l' delta',
      layer_dense_feedforward ex_layer_created ex_input (some ⟨[]⟩) []
        = (ex_layer_created, out_t, some c1, []) ∧
      out_t.shape = ⟨2, 1, 1⟩ ∧
      layer_dense_backprop ex_layer_created ex_delta (some c1) []
        = .ok (l', delta', some ⟨[]⟩, []) ∧
      delta'.shape = ex_input.shape :=
  ⟨⟨rfl, ex_layer_created_eq, rfl, rfl⟩,
    layer_dense_round_trip_shape (fun _ => 1) 1 (fun _ => 1) (fun _ => 0) (fun _ => 1) 1
      ex_layer_blank ⟨⟨2⟩⟩ 3 0 ex_layer_created 12 ex_input ex_delta ⟨[]⟩ [] rfl
      ex_layer_created_eq rfl rfl⟩

/-- C14. For a Dense layer in training mode with `n` inputs and `m` outputs, any cache,
an input of shape `(n, 1, 1)` and a delta of shape `(m, 1, 1)`: `_layer_dense_feedforward`
leaves the cache with the input pushed on the old stack (one push), the pop of that cache
returns this input and the old cache (LIFO), and `_layer_dense_backprop` returns with the
cache holding exactly the entries it held before the feedforward (one pop). -/
theorem layer_dense_cache_push_pop [Zero α] [Add α] [Mul α] (l : layer α) (m n : Nat)
    (x delta : tensor α) (c : layers_cache α) (err : List ts_error)
    (hl : dense_layer_ready l m n) (hx : x.shape = ⟨n, 1, 1⟩)
    (hd : delta.shape = ⟨m, 1, 1⟩) :
    ∃ out_t c1 l' delta',
      layer_dense_feedforward l x (some c) err = (l, out_t, some c1, err) ∧
      c1.stack = x :: c.stack ∧
      layers_cache_pop c1 = (some x, c) ∧
      layer_dense_backprop l delta (some c1) err = .ok (l', delta', some c, err) := by
  have hff := layer_dense_feedforward_spec l x (some c) err m n hl.2.1 hl.2.2.2.1 hx
  have hcache := layer_dense_feedforward_cache l x (some c) err
  simp only [hl.1, if_true] at hcache
  rw [hcache] at hff
  obtain ⟨wc, hwc, _, _⟩ := hl.2.2.2.2.2.2.2.1
  obtain ⟨bc, hbc, _, _⟩ := hl.2.2.2.2.2.2.2.2
  have hbp := layer_dense_backprop_spec l delta ⟨x :: c.stack⟩ err m n x
    c.stack bc wc hl hbc hwc rfl hx hd
  exact ⟨_, _, _, _, hff, rfl, rfl, hbp⟩

theorem layer_dense_cache_push_pop_witness :
    (dense_layer_ready ex_layer 2 3 ∧ ex_input.shape = ⟨3, 1, 1⟩ ∧
      ex_delta.shape = ⟨2, 1, 1⟩) ∧
    ∃ out_t c1 l' delta',
      layer_dense_feedforward ex_layer ex_input (some ⟨[ex_delta]⟩) []
        = (ex_layer, out_t, some c1, []) ∧
      c1.stack = ex_input :: (⟨[ex_delta]⟩ : layers_cache ℚ).stack ∧
      layers_cache_pop c1 = (some ex_input, ⟨[ex_delta]⟩) ∧
      layer_dense_backprop ex_layer ex_delta (some c1) []
        = .ok (l', delta', some ⟨[ex_delta]⟩, []) :=
  ⟨⟨ex_layer_ready, rfl, rfl⟩,
    layer_dense_cache_push_pop ex_layer 2 3 ex_input ex_delta ⟨[ex_delta]⟩ [] ex_layer_ready
      rfl rfl⟩

end claims_round_trip

section claims_batch

variable {α : Type}

/-- C15. For a Dense layer in training mode with fixed weights, gradient sums `bc` and
`wc`, and a batch of samples (cached input of shape `(n, 1, 1)`, delta of shape
`(m, 1, 1)`), running `_layer_dense_backprop` once per sample returns and leaves, in exact
arithmetic, bias-sum element `j` equal to `bc[j]` plus the sum over the samples of `d[j]`
and weight-sum element `(x = j, y = i)` equal to `wc(j, i)` plus the sum over the samples
of `x[i] * d[j]`. The two gradient sums are the same tensors for every order of the
samples, and for every order in which the slices of a partition of the batch into
contiguous slices are processed. -/
theorem layer_dense_gradient_sum_order_independent [Semiring α] (l : layer α) (m n : Nat)
    (bc wc : tensor α) (samples : List (tensor α × tensor α)) (err : List ts_error)
    (hl : dense_layer_ready l m n)
    (hbc : l.dense_backend.bias_change.change = some bc)
    (hwc : l.dense_backend.weight_change.change = some wc)
    (hs : ∀ s ∈ samples,
      s.1.shape = ⟨n, 1, 1⟩ ∧ s.2.shape = ⟨m, 1, 1⟩ ∧ s.2.data.length = m) :
    ∃ l' bc' wc',
      layer_dense_backprop_batch l samples err = .ok (l', err) ∧
      l'.dense_backend.bias_change.change = some bc' ∧
      l'.dense_backend.weight_change.change = some wc' ∧
      l'.dense_backend.weight = l.dense_backend.weight ∧
      l'.dense_backend.bias = l.dense_backend.bias ∧
      (∀ j, j < m → tensor_at bc' j 0 = some
        (tensor_get bc j 0 + (samples.map (fun s => tensor_get s.2 j 0)).sum)) ∧
      (∀ i j, i < n → j < m → tensor_at wc' j i = some
        (tensor_get wc j i +
          (samples.map (fun s => tensor_get s.1 i 0 * tensor_get s.2 j 0)).sum)) ∧
      (∀ samples' : List (tensor α × tensor α), samples'.Perm samples →
        ∃ l'', layer_dense_backprop_batch l samples' err = .ok (l'', err) ∧
          l''.dense_backend.bias_change.change = some bc' ∧
          l''.dense_backend.weight_change.change = some wc') ∧
      (∀ slices slices' : List (List (tensor α × tensor α)),
        slices.flatten = samples → slices'.Perm slices →
        ∃ l'', layer_dense_backprop_batch l slices'.flatten err = .ok (l'', err) ∧
          l''.dense_backend.bias_change.change = some bc' ∧
          l''.dense_backend.weight_change.change = some wc') := by
  obtain ⟨l', bc', wc', hrun, hl', hbc', hwc', hw', hb', hbj, hwj⟩ :=
    layer_dense_backprop_batch_spec m n err samples l bc wc hl hbc hwc hs
  have hperm : ∀ samples' : List (tensor α × tensor α), samples'.Perm samples →
      ∃ l'', layer_dense_backprop_batch l samples' err = .ok (l'', err) ∧
        l''.dense_backend.bias_change.change = some bc' ∧
        l''.dense_backend.weight_change.change = some wc' := by
    intro samples' hp
    obtain ⟨l'', bc'', wc'', hrun', hl'', hbc'', hwc'', _, _, hbj', hwj'⟩ :=
      layer_dense_backprop_batch_spec m n err samples' l bc wc hl hbc hwc
        (fun s hs' => hs s (hp.mem_iff.1 hs'))
    obtain ⟨_, _, _, _, _, _, _, ⟨w1, hw1, hw1s, hw1l⟩, ⟨b1, hb1, hb1s, hb1l⟩⟩ := hl'
    obtain ⟨_, _, _, _, _, _, _, ⟨w2, hw2, hw2s, hw2l⟩, ⟨b2, hb2, hb2s, hb2l⟩⟩ := hl''
    rw [hwc'] at hw1; cases hw1
    rw [hbc'] at hb1; cases hb1
    rw [hwc''] at hw2; cases hw2
    rw [hbc''] at hb2; cases hb2
    refine ⟨l'', hrun', ?_, ?_⟩
    · rw [hbc'']
      congr 1
      apply tensor_ext_of_get bc'' bc' m 1 (by rw [hb2s, hb1s]) (by rw [hb2s])
        (by simpa using hb2l) (by simpa using hb1l)
      intro i j hi hj
      obtain rfl : i = 0 := by omega
      rw [hbj' j hj, hbj j hj, (hp.map _).sum_eq]
    · rw [hwc'']
      congr 1
      apply tensor_ext_of_get wc'' wc' m n (by rw [hw2s, hw1s]) (by rw [hw2s]) hw2l hw1l
      intro i j hi hj
      rw [hwj' i j hi hj, hwj i j hi hj, (hp.map _).sum_eq]
  obtain ⟨_, _, _, _, _, _, _, ⟨w1, hw1, hw1s, hw1l⟩, ⟨b1, hb1, hb1s, hb1l⟩⟩ := hl'
  rw [hwc'] at hw1; cases hw1
  rw [hbc'] at hb1; cases hb1
  refine ⟨l', bc', wc', hrun, hbc', hwc', hw', hb', ?_, ?_, hperm, ?_⟩
  · intro j hj
    rw [tensor_at_eq_get _ _ _ (by rw [hb1l]; simpa using hj), hbj j hj]
  · intro i j hi hj
    rw [tensor_at_eq_get _ _ _ (by rw [hw1l, hw1s]; exact index_lt_mul j i m n hj hi),
      hwj i j hi hj]
  · intro slices slices' hflat hp
    exact hperm _ (hflat ▸ hp.flatten)

theorem ex_samples_shapes : ∀ s ∈ ex_samples,
    s.1.shape = ⟨3, 1, 1⟩ ∧ s.2.shape = ⟨2, 1, 1⟩ ∧ s.2.data.length = 2 := by
  intro s hs
  simp only [ex_samples, List.mem_cons, List.mem_singleton, List.not_mem_nil, or_false] at hs
  rcases hs with rfl | rfl <;> exact ⟨rfl, rfl, rfl⟩

theorem layer_dense_gradient_sum_order_independent_witness :
    (dense_layer_ready ex_layer 2 3 ∧
      ex_layer.dense_backend.bias_change.change = some ⟨⟨2, 1, 1⟩, [1, 1]⟩ ∧
      ex_layer.dense_backend.weight_change.change = some ⟨⟨2, 3, 1⟩, [1, 1, 1, 1, 1, 1]⟩ ∧
      (∀ s ∈ ex_samples,
        s.1.shape = ⟨3, 1, 1⟩ ∧ s.2.shape = ⟨2, 1, 1⟩ ∧ s.2.data.length = 2)) ∧
    ∃ l' bc' wc',
      layer_dense_backprop_batch ex_layer ex_samples [] = .ok (l', []) ∧
      l'.dense_backend.bias_change.change = some bc' ∧
      l'.dense_backend.weight_change.change = some wc' ∧
      l'.dense_backend.weight = ex_layer.dense_backend.weight ∧
      l'.dense_backend.bias = ex_layer.dense_backend.bias ∧
      (∀ j, j < 2 → tensor_at bc' j 0 = some
        (tensor_get ⟨⟨2, 1, 1⟩, [1, 1]⟩ j 0
          + (ex_samples.map (fun s => tensor_get s.2 j 0)).sum)) ∧
      (∀ i j, i < 3 → j < 2 → tensor_at wc' j i = some
        (tensor_get ⟨⟨2, 3, 1⟩, [1, 1, 1, 1, 1, 1]⟩ j i +
          (ex_samples.map (fun s => tensor_get s.1 i 0 * tensor_get s.2 j 0)).sum)) ∧
      (∀ samples' : List (tensor ℚ × tensor ℚ), samples'.Perm ex_samples →
        ∃ l'', layer_dense_backprop_batch ex_layer samples' [] = .ok (l'', []) ∧
          l''.dense_backend.bias_change.change = some bc' ∧
          l''.dense_backend.weight_change.change = some wc') ∧
      (∀ slices slices' : List (List (tensor ℚ × tensor ℚ)),
        slices.flatten = ex_samples → slices'.Perm slices →
        ∃ l'', layer_dense_backprop_batch ex_layer slices'.flatten [] = .ok (l'', []) ∧
          l''.dense_backend.bias_change.change = some bc' ∧
          l''.dense_backend.weight_change.change = some wc') :=
  ⟨⟨ex_layer_ready, rfl, rfl, ex_samples_shapes⟩,
    layer_dense_gradient_sum_order_independent ex_layer 2 3 ⟨⟨2, 1, 1⟩, [1, 1]⟩
      ⟨⟨2, 3, 1⟩, [1, 1, 1, 1, 1, 1]⟩ ex_samples [] ex_layer_ready rfl rfl ex_samples_shapes⟩

end claims_batch

section claims_shape

variable {α : Type}

/-- C16. (1) If every call of `_standard_normal` sees an accepted draw sooner or later,
`_layer_dense_create` returns with enough fuel. (2) Whenever it returns (for any random
draws, library functions, training mode, incoming layer and call count), the layer's
output shape is `(size, 1, 1)`, the bias shape `(size, 1, 1)` and the weight shape
`(size, prev_shape.width, 1)`: the output shape is a function of `size` alone.
(3) `_layer_dense_feedforward`, `_layer_dense_backprop` and `_layer_dense_apply_changes`
leave the layer's shape field as it is. (4) For a created layer and an input of shape
`(prev_shape.width, 1, 1)`, the tensor feedforward produces has the layer's shape and no
error is reported. -/
theorem layer_dense_output_shape [Zero α] [One α] [Add α] [Sub α] [Mul α] [Div α] [Neg α]
    [OfScientific α] [NatCast α] [Pow α Nat] [LE α] [DecidableRel (fun a b : α => a ≤ b)]
    (rand : Nat → Nat) (RAND_MAX : Nat) (sqrtf logf cos : α → α) (out : layer α)
    (desc : layer_desc) (prev_shape : tensor_shape) (calls : Nat)
    (hfair : ∀ c, ∃ k, rand_accepted (α := α) rand RAND_MAX (c + k)) :
    (∃ f0 l calls', ∀ fuel, f0 ≤ fuel →
      layer_dense_create rand RAND_MAX sqrtf logf cos fuel out desc prev_shape calls
        = .ok (l, calls')) ∧
    (∀ (rand' : Nat → Nat) (RAND_MAX' : Nat) (sqrtf' logf' cos' : α → α) (fuel : Nat)
      (out' : layer α) (prev_shape' : tensor_shape) (calls0 : Nat) (l : layer α)
      (calls' : Nat),
      layer_dense_create rand' RAND_MAX' sqrtf' logf' cos' fuel out' desc prev_shape' calls0
        = .ok (l, calls') →
      l.shape = ⟨desc.dense.size, 1, 1⟩ ∧
      l.dense_backend.bias.shape = ⟨desc.dense.size, 1, 1⟩ ∧
      l.dense_backend.weight.shape = ⟨desc.dense.size, prev_shape'.width, 1⟩) ∧
    (∀ (l : layer α) (x : tensor α) (cache : Option (layers_cache α)) (err : List ts_error),
      (layer_dense_feedforward l x cache err).1.shape = l.shape) ∧
    (∀ (l : layer α) (delta : tensor α) (cache : Option (layers_cache α))
      (err : List ts_error) r,
      layer_dense_backprop l delta cache err = .ok r → r.1.shape = l.shape) ∧
    (∀ (l l' : layer α) (optim : optimizer α),
      layer_dense_apply_changes sqrtf l optim = .ok l' → l'.shape = l.shape) ∧
    (∀ (fuel : Nat) (l : layer α) (calls' : Nat) (x : tensor α)
      (cache : Option (layers_cache α)) (err : List ts_error),
      layer_dense_create rand RAND_MAX sqrtf logf cos fuel out desc prev_shape calls
        = .ok (l, calls') →
      x.shape = ⟨prev_shape.width, 1, 1⟩ →
      (layer_dense_feedforward l x cache err).2.1.shape = l.shape ∧
      (layer_dense_feedforward l x cache err).2.2.2 = err) := by
  refine ⟨layer_dense_create_returns rand RAND_MAX sqrtf logf cos out desc prev_shape calls
    hfair, ?_, fun _ _ _ _ => rfl, ?_, ?_, ?_⟩
  · intro rand' RAND_MAX' sqrtf' logf' cos' fuel out' prev_shape' calls0 l calls' h
    obtain ⟨_, hs, hws, _, hb, _, _⟩ := layer_dense_create_result _ _ _ _ _ _ _ _ _ _ _ _ h
    exact ⟨hs, by rw [hb]; rfl, hws⟩
  · intro l delta cache err r h
    exact (layer_dense_backprop_shape l delta cache err r h).1
  · intro l l' optim h
    exact (layer_dense_apply_changes_shape sqrtf l l' optim h).1
  · intro fuel l calls' x cache err h hx
    obtain ⟨_, hs, hws, _, hb, _, _⟩ := layer_dense_create_result _ _ _ _ _ _ _ _ _ _ _ _ h
    have hff := layer_dense_feedforward_spec l x cache err desc.dense.size prev_shape.width
      hws (by rw [hb]; rfl) hx
    rw [hff, hs]
    exact ⟨rfl, rfl⟩

theorem layer_dense_output_shape_witness :
    (∀ c, ∃ k, rand_accepted (α := ℚ) (fun _ => 1) 1 (c + k)) ∧
    ((∃ f0 l calls', ∀ fuel, f0 ≤ fuel →
      layer_dense_create (fun _ => 1) 1 id id id fuel ex_layer_blank ⟨⟨2⟩⟩ ⟨3, 1, 1⟩ 0
        = .ok (l, calls')) ∧
    (∀ (rand' : Nat → Nat) (RAND_MAX' : Nat) (sqrtf' logf' cos' : ℚ → ℚ) (fuel : Nat)
      (out' : layer ℚ) (prev_shape' : tensor_shape) (calls0 : Nat) (l : layer ℚ)
      (calls' : Nat),
      layer_dense_create rand' RAND_MAX' sqrtf' logf' cos' fuel out' ⟨⟨2⟩⟩ prev_shape' calls0
        = .ok (l, calls') →
      l.shape = ⟨2, 1, 1⟩ ∧
      l.dense_backend.bias.shape = ⟨2, 1, 1⟩ ∧
      l.dense_backend.weight.shape = ⟨2, prev_shape'.width, 1⟩) ∧
    (∀ (l : layer ℚ) (x : tensor ℚ) (cache : Option (layers_cache ℚ)) (err : List ts_error),
      (layer_dense_feedforward l x cache err).1.shape = l.shape) ∧
    (∀ (l : layer ℚ) (delta : tensor ℚ) (cache : Option (layers_cache ℚ))
      (err : List ts_error) r,
      layer_dense_backprop l delta cache err = .ok r → r.1.shape = l.shape) ∧
    (∀ (l l' : layer ℚ) (optim : optimizer ℚ),
      layer_dense_apply_changes id l optim = .ok l' → l'.shape = l.shape) ∧
    (∀ (fuel : Nat) (l : layer ℚ) (calls' : Nat) (x : tensor ℚ)
      (cache : Option (layers_cache ℚ)) (err : List ts_error),
      layer_dense_create (fun _ => 1) 1 id id id fuel ex_layer_blank ⟨⟨2⟩⟩ ⟨3, 1, 1⟩ 0
        = .ok (l, calls') →
      x.shape = ⟨3, 1, 1⟩ →
      (layer_dense_feedforward l x cache err).2.1.shape = l.shape ∧
      (layer_dense_feedforward l x cache err).2.2.2 = err)) :=
  ⟨fun _ => ⟨0, by norm_num [rand_accepted]⟩,
    layer_dense_output_shape (fun _ => 1) 1 id id id ex_layer_blank ⟨⟨2⟩⟩ ⟨3, 1, 1⟩ 0
      (fun _ => ⟨0, by norm_num [rand_accepted]⟩)⟩

end claims_shape

section claims_passes

variable {α : Type}

/-- C17. For a Dense layer with weight shape `(m, n, 1)` and bias shape `(m, 1, 1)`
(`m` elements) and an input `x` of shape `(n, 1, 1)`, `_layer_dense_feedforward` replaces
the tensor by `x · weight + bias`: the result has shape `(m, 1, 1)` and `m` elements,
element `j` is `(sum over i < n of x[i] * weight(x = j, y = i)) + bias[j]`; the layer, so
weight and bias, is unchanged and no error is reported. -/
theorem layer_dense_feedforward_computes [Zero α] [Add α] [Mul α] (l : layer α)
    (x : tensor α) (cache : Option (layers_cache α)) (err : List ts_error) (m n : Nat)
    (hw : l.dense_backend.weight.shape = ⟨m, n, 1⟩)
    (hb : l.dense_backend.bias.shape = ⟨m, 1, 1⟩)
    (hbl : l.dense_backend.bias.data.length = m) (hx : x.shape = ⟨n, 1, 1⟩) :
    ∃ out cache', layer_dense_feedforward l x cache err = (l, out, cache', err) ∧
      out.shape = ⟨m, 1, 1⟩ ∧ out.data.length = m ∧
      ∀ j, j < m → out.data[j]? = some
        (((List.range n).map (fun i =>
            tensor_get x i 0 * tensor_get l.dense_backend.weight j i)).sum
          + tensor_get l.dense_backend.bias j 0) := by
  refine ⟨_, _, layer_dense_feedforward_spec l x cache err m n hw hb hx, rfl, ?_, ?_⟩
  · simp [tensor_dot_data_length, hw, hx, hbl]
  · intro j hj
    have hd := tensor_dot_data_getElem x l.dense_backend.weight j 0
      (by rw [hw]; exact hj) (by rw [hx]; exact Nat.one_pos)
    have hdl : j < (tensor_dot_data x l.dense_backend.weight).length := by
      rw [tensor_dot_data_length, hw, hx]; simpa using hj
    have hjb : j < l.dense_backend.bias.data.length := by rw [hbl]; exact hj
    simp only [zipWith_add_getElem _ _ j hdl hjb]
    simp only [Nat.zero_mul, Nat.add_zero, hx] at hd
    rw [List.getElem?_eq_getElem hdl] at hd
    simp only [Option.some.injEq] at hd
    have hbj : tensor_get l.dense_backend.bias j 0 = l.dense_backend.bias.data[j] := by
      simp [tensor_get, List.getElem?_eq_getElem hjb]
    rw [hd, hbj]

theorem layer_dense_feedforward_computes_witness :
    (ex_layer.dense_backend.weight.shape = ⟨2, 3, 1⟩ ∧
      ex_layer.dense_backend.bias.shape = ⟨2, 1, 1⟩ ∧
      ex_layer.dense_backend.bias.data.length = 2 ∧ ex_input.shape = ⟨3, 1, 1⟩) ∧
    ∃ out cache', layer_dense_feedforward ex_layer ex_input (some ⟨[]⟩) []
        = (ex_layer, out, cache', []) ∧
      out.shape = ⟨2, 1, 1⟩ ∧ out.data.length = 2 ∧
      ∀ j, j < 2 → out.data[j]? = some
        (((List.range 3).map (fun i =>
            tensor_get ex_input i 0 * tensor_get ex_layer.dense_backend.weight j i)).sum
          + tensor_get ex_layer.dense_backend.bias j 0) :=
  ⟨⟨rfl, rfl, rfl, rfl⟩,
    layer_dense_feedforward_computes ex_layer ex_input (some ⟨[]⟩) [] 2 3 rfl rfl rfl rfl⟩

end claims_passes

/-! ## Further claims on the cost module -/

section claims_costs_more

variable {α : Type}

/-- C18. Over the reals, for valid shape-equal non-empty tensors with `size` elements and
every index `i`: `mean_squared_grad` writes `pred[i] - target[i]` at `i`; the partial
derivative of `mean_squared_func` with respect to `pred[i]` is
`(pred[i] - target[i]) / size`; so the value written is `size` times the derivative. The
two are equal when `size = 1`, and for `size > 1` they differ at every index where
`pred[i] ≠ target[i]` (where `pred[i] = target[i]` both are 0). -/
theorem mean_squared_grad_is_size_times_derivative (pred target : ts_tensor ℝ)
    (hshape : pred.shape = target.shape) (hp : pred.valid) (ht : target.valid)
    (i : Nat) (hi : i < pred.data.length) (hi' : i < target.data.length) :
    ∃ r, mean_squared_grad pred target = .ok (r, target) ∧
      r.data[i]? = some (pred.data[i] - target.data[i]) ∧
      HasDerivAt
        (fun x => value_of (mean_squared_func ⟨pred.shape, pred.data.set i x⟩ target))
        ((pred.data[i] - target.data[i]) / (pred.data.length : ℝ)) pred.data[i] ∧
      pred.data[i] - target.data[i] =
        (pred.data.length : ℝ) * ((pred.data[i] - target.data[i]) / (pred.data.length : ℝ)) ∧
      (pred.data.length = 1 →
        pred.data[i] - target.data[i]
          = (pred.data[i] - target.data[i]) / (pred.data.length : ℝ)) ∧
      (1 < pred.data.length → pred.data[i] ≠ target.data[i] →
        pred.data[i] - target.data[i]
          ≠ (pred.data[i] - target.data[i]) / (pred.data.length : ℝ)) := by
  have hl := valid_length_eq pred target hshape hp ht
  have hn : (0 : ℝ) < (pred.data.length : ℝ) := by
    have : 0 < pred.data.length := by omega
    exact_mod_cast this
  obtain ⟨r, hr, _, hj⟩ := mean_squared_grad_loop_spec target.data pred.data.length 0
    pred.data (by simp) hl
  refine ⟨{ pred with data := r }, ?_, ?_, ?_, ?_, ?_, ?_⟩
  · simp [mean_squared_grad, ts_shape_size_valid pred hp, hr, bind, Except.bind, pure,
      Except.pure]
  · simpa using hj i hi hi'
  · have hf : (fun x => value_of (mean_squared_func ⟨pred.shape, pred.data.set i x⟩ target))
        = fun x => (List.zipWith (fun a b => 0.5 * (a - b) ^ 2) (pred.data.set i x)
            target.data).sum / (pred.data.length : ℝ) := by
      funext x
      have hv : (⟨pred.shape, pred.data.set i x⟩ : ts_tensor ℝ).valid := by
        obtain ⟨h1, h2, h3, h4, h5⟩ := hp
        exact ⟨h1, h2, h3, by simpa using h4, by simpa using h5⟩
      rw [mean_squared_func_eq _ target hv (by simpa using hl)]
      simp [value_of]
    rw [hf]
    exact (half_squares_set_hasDerivAt pred.data target.data i hi hi' pred.data[i]).div_const _
  · field_simp
  · intro h1
    simp [h1]
  · intro h1 hne heq
    have hsub : pred.data[i] - target.data[i] ≠ 0 := sub_ne_zero.2 hne
    have hlt : (1 : ℝ) < (pred.data.length : ℝ) := by exact_mod_cast h1
    field_simp at heq
    have : (pred.data.length : ℝ) = 1 := by
      have h2 : (pred.data[i] - target.data[i]) * ((pred.data.length : ℝ) - 1) = 0 := by
        linarith
      rcases mul_eq_zero.1 h2 with h | h
      · exact absurd h hsub
      · linarith
    linarith

theorem mean_squared_grad_is_size_times_derivative_witness :
    ((⟨⟨2, 1, 1⟩, [3, 5]⟩ : ts_tensor ℝ).shape = (⟨⟨2, 1, 1⟩, [1, 1]⟩ : ts_tensor ℝ).shape ∧
      (⟨⟨2, 1, 1⟩, [3, 5]⟩ : ts_tensor ℝ).valid ∧ (⟨⟨2, 1, 1⟩, [1, 1]⟩ : ts_tensor ℝ).valid ∧
      0 < (⟨⟨2, 1, 1⟩, [3, 5]⟩ : ts_tensor ℝ).data.length ∧
      0 < (⟨⟨2, 1, 1⟩, [1, 1]⟩ : ts_tensor ℝ).data.length) ∧
    ∃ r, mean_squared_grad (⟨⟨2, 1, 1⟩, [3, 5]⟩ : ts_tensor ℝ) ⟨⟨2, 1, 1⟩, [1, 1]⟩
        = .ok (r, ⟨⟨2, 1, 1⟩, [1, 1]⟩) ∧
      r.data[0]? = some (([3, 5] : List ℝ)[0] - ([1, 1] : List ℝ)[0]) ∧
      HasDerivAt
        (fun x => value_of (mean_squared_func ⟨⟨2, 1, 1⟩, ([3, 5] : List ℝ).set 0 x⟩
          ⟨⟨2, 1, 1⟩, [1, 1]⟩))
        ((([3, 5] : List ℝ)[0] - ([1, 1] : List ℝ)[0]) / (([3, 5] : List ℝ).length : ℝ))
        ([3, 5] : List ℝ)[0] ∧
      ([3, 5] : List ℝ)[0] - ([1, 1] : List ℝ)[0] =
        (([3, 5] : List ℝ).length : ℝ) *
          ((([3, 5] : List ℝ)[0] - ([1, 1] : List ℝ)[0]) / (([3, 5] : List ℝ).length : ℝ)) ∧
      (([3, 5] : List ℝ).length = 1 →
        ([3, 5] : List ℝ)[0] - ([1, 1] : List ℝ)[0]
          = (([3, 5] : List ℝ)[0] - ([1, 1] : List ℝ)[0]) / (([3, 5] : List ℝ).length : ℝ)) ∧
      (1 < ([3, 5] : List ℝ).length → ([3, 5] : List ℝ)[0] ≠ ([1, 1] : List ℝ)[0] →
        ([3, 5] : List ℝ)[0] - ([1, 1] : List ℝ)[0]
          ≠ (([3, 5] : List ℝ)[0] - ([1, 1] : List ℝ)[0]) / (([3, 5] : List ℝ).length : ℝ)) :=
  ⟨⟨rfl, by norm_num [ts_tensor.valid], by norm_num [ts_tensor.valid], by norm_num,
      by norm_num⟩,
    mean_squared_grad_is_size_times_derivative ⟨⟨2, 1, 1⟩, [3, 5]⟩ ⟨⟨2, 1, 1⟩, [1, 1]⟩ rfl
      (by norm_num [ts_tensor.valid]) (by norm_num [ts_tensor.valid]) 0 (by norm_num)
      (by norm_num)⟩

/-- C19. In exact arithmetic (a linearly ordered field), for valid shape-equal non-empty
tensors, `ts_cost_func` with the MeanSquaredError kind returns a value that is
non-negative, and that is 0 if and only if `pred[i] = target[i]` for every `i`. -/
theorem ts_cost_func_mean_squared_nonneg [LinearOrderedField α] (logf : α → α)
    (pred target : ts_tensor α) (err : List ts_error) (hshape : pred.shape = target.shape)
    (hp : pred.valid) (ht : target.valid) (hne : 0 < pred.data.length) :
    ∃ v, ts_cost_func logf TS_COST_MEAN_SQUARED_ERROR (some pred) (some target) err
        = .ok (v, err) ∧
      0 ≤ v ∧
      (v = 0 ↔ ∀ (i : Nat) (hi : i < pred.data.length) (hi' : i < target.data.length),
        pred.data[i] = target.data[i]) := by
  have hl := valid_length_eq pred target hshape hp ht
  have hn : (0 : α) < (pred.data.length : α) := by exact_mod_cast hne
  refine ⟨_, ts_cost_func_mean_squared_dispatch logf pred target err hshape _
    (mean_squared_func_eq pred target hp hl), ?_, ?_⟩
  · exact div_nonneg (half_squares_sum_nonneg _ _) hn.le
  · rw [div_eq_zero_iff, half_squares_sum_eq_zero_iff _ _ hl]
    constructor
    · rintro (h | h)
      · intro i hi hi'
        simp [h]
      · exact absurd h hn.ne'
    · intro h
      left
      exact List.ext_getElem hl (fun i hi hi' => h i hi hi')

theorem ts_cost_func_mean_squared_nonneg_witness :
    (ex_pred.shape = ex_target.shape ∧ ex_pred.valid ∧ ex_target.valid ∧
      0 < ex_pred.data.length) ∧
    ∃ v, ts_cost_func id TS_COST_MEAN_SQUARED_ERROR (some ex_pred) (some ex_target) []
        = .ok (v, []) ∧
      0 ≤ v ∧
      (v = 0 ↔ ∀ (i : Nat) (_ : i < ex_pred.data.length) (hi' : i < ex_target.data.length),
        ex_pred.data[i] = ex_target.data[i]) :=
  ⟨⟨rfl, by decide, by decide, by decide⟩,
    ts_cost_func_mean_squared_nonneg id ex_pred ex_target [] rfl (by decide) (by decide)
      (by decide)⟩

/-- C20. In exact arithmetic, for valid shape-equal tensors, `ts_cost_grad` with the
CategoricalCrossEntropy kind returns, and at every index `i` the value written is
`-target[i] / (pred[i] + 1e-8)`: the denominator is strictly positive whenever
`pred[i] >= 0`, and it is zero exactly when `pred[i] = -1e-8`. -/
theorem cce_grad_denominator_guard [LinearOrderedField α] (logf : α → α)
    (pred target : ts_tensor α) (err : List ts_error) (hshape : pred.shape = target.shape)
    (hp : pred.valid) (ht : target.valid) :
    ∃ r, ts_cost_grad logf TS_COST_CATEGORICAL_CROSS_ENTROPY (some pred) (some target) err
          = .ok (some r, some target, err) ∧
      ∀ (i : Nat) (hi : i < pred.data.length) (hi' : i < target.data.length),
        r.data[i]? = some (-target.data[i] / (pred.data[i] + 1e-8)) ∧
        (0 ≤ pred.data[i] → 0 < pred.data[i] + 1e-8) ∧
        (pred.data[i] + 1e-8 = 0 ↔ pred.data[i] = -1e-8) := by
  have hl := valid_length_eq pred target hshape hp ht
  obtain ⟨r, hr, _, hj⟩ := cce_grad_loop_spec target.data pred.data.length 0
    pred.data (by simp) hl
  have hse : ts_tensor_shape_eq pred.shape target.shape = true :=
    (ts_tensor_shape_eq_iff _ _).2 hshape
  have heps : (0 : α) < 1e-8 := by norm_num
  refine ⟨{ pred with data := r }, ?_, fun i hi hi' => ⟨?_, ?_, ?_⟩⟩
  · simp [ts_cost_grad, TS_COST_CATEGORICAL_CROSS_ENTROPY, TS_COST_COUNT, deref, hse, costs,
      load, cce_grad, ts_shape_size_valid pred hp, hr, bind, Except.bind, pure, Except.pure]
  · simpa using hj i hi hi'
  · intro h
    linarith
  · constructor
    · intro h
      linarith
    · intro h
      rw [h]
      ring

theorem cce_grad_denominator_guard_witness :
    (ex_pred.shape = ex_target.shape ∧ ex_pred.valid ∧ ex_target.valid) ∧
    ∃ r, ts_cost_grad id TS_COST_CATEGORICAL_CROSS_ENTROPY (some ex_pred) (some ex_target) []
          = .ok (some r, some ex_target, []) ∧
      ∀ (i : Nat) (_ : i < ex_pred.data.length) (hi' : i < ex_target.data.length),
        r.data[i]? = some (-ex_target.data[i] / (ex_pred.data[i] + 1e-8)) ∧
        (0 ≤ ex_pred.data[i] → 0 < ex_pred.data[i] + 1e-8) ∧
        (ex_pred.data[i] + 1e-8 = 0 ↔ ex_pred.data[i] = -1e-8) :=
  ⟨⟨rfl, by decide, by decide⟩,
    cce_grad_denominator_guard id ex_pred ex_target [] rfl (by decide) (by decide)⟩

end claims_costs_more

/-! ## Lemmas on the explicit memory -/

section memory_lemmas

variable {α : Type}

theorem tensor_read_ok (mem : List (List α)) (t : tensor_ref) (v : tensor α)
    (h : tensor_read mem t = .ok v) :
    ∃ hlt : t.data < mem.length, v = ⟨t.shape, mem[t.data]⟩ := by
  unfold tensor_read load at h
  cases hget : mem[t.data]? with
  | none => simp [hget, bind, Except.bind] at h
  | some buf =>
    have hlt : t.data < mem.length := by
      by_contra hcon
      rw [List.getElem?_eq_none (by omega)] at hget
      cases hget
    have hbuf : mem[t.data] = buf := by
      rw [List.getElem?_eq_getElem hlt] at hget
      exact Option.some.inj hget
    simp only [hget, bind, Except.bind, pure, Except.pure, Except.ok.injEq] at h
    exact ⟨hlt, by rw [← h, hbuf]⟩

theorem tensor_read_of_lt (mem : List (List α)) (t : tensor_ref) (hlt : t.data < mem.length) :
    tensor_read mem t = .ok ⟨t.shape, mem[t.data]⟩ := by
  simp [tensor_read, load, List.getElem?_eq_getElem hlt, bind, Except.bind, pure,
    Except.pure]

theorem tensor_read_set_self (mem : List (List α)) (s : tensor_shape) (a : Nat)
    (d : List α) (hlt : a < mem.length) :
    tensor_read (mem.set a d) ⟨s, a⟩ = .ok ⟨s, d⟩ := by
  simp [tensor_read, load, hlt, bind, Except.bind, pure, Except.pure]

theorem tensor_read_set_ne (mem : List (List α)) (t : tensor_ref) (a : Nat) (d : List α)
    (hne : t.data ≠ a) : tensor_read (mem.set a d) t = tensor_read mem t := by
  simp [tensor_read, load, List.getElem?_set_ne (Ne.symm hne)]

theorem tensor_read_append (mem : List (List α)) (t : tensor_ref) (v : tensor α)
    (b : List α) (h : tensor_read mem t = .ok v) :
    tensor_read (mem ++ [b]) t = .ok v := by
  obtain ⟨hlt, rfl⟩ := tensor_read_ok mem t v h
  simp [tensor_read, load, List.getElem?_append_left hlt, List.getElem?_eq_getElem hlt, bind,
    Except.bind, pure, Except.pure]

theorem tensor_read_append_new (mem : List (List α)) (s : tensor_shape) (b : List α) :
    tensor_read (mem ++ [b]) ⟨s, mem.length⟩ = .ok ⟨s, b⟩ := by
  simp [tensor_read, load, bind, Except.bind, pure, Except.pure]

/-- The two in-place operations of `_layer_dense_feedforward` on a memory in which
`in_out` reads as `x`: they return, write only the buffer of `in_out`, and leave there the
output the function computes on the tensor `x`. -/
theorem layer_dense_feedforward_mem_ops [Zero α] [Add α] [Mul α] (l : layer α)
    (mem : List (List α)) (in_out : tensor_ref) (x : tensor α) (err : List ts_error)
    (hx : tensor_read mem in_out = .ok x) :
    ∃ mem1 out1 err1 mem' out',
      tensor_dot_ip_mem mem in_out in_out l.dense_backend.weight err
        = .ok (mem1, out1, err1) ∧
      tensor_add_ip_mem mem1 out1 out1 l.dense_backend.bias err1
        = .ok (mem', out', (layer_dense_feedforward l x none err).2.2.2) ∧
      out'.data = in_out.data ∧
      tensor_read mem' out' = .ok (layer_dense_feedforward l x none err).2.1 ∧
      ∀ t, t.data ≠ in_out.data → tensor_read mem' t = tensor_read mem t := by
  obtain ⟨hlt, _⟩ := tensor_read_ok mem in_out x hx
  have hlt1 : in_out.data < (mem.set in_out.data
      (tensor_dot_ip x x l.dense_backend.weight err).1.data).length := by simpa using hlt
  have hr1 := tensor_read_set_self mem (tensor_dot_ip x x l.dense_backend.weight err).1.shape
    in_out.data (tensor_dot_ip x x l.dense_backend.weight err).1.data hlt
  refine ⟨mem.set in_out.data (tensor_dot_ip x x l.dense_backend.weight err).1.data,
    ⟨(tensor_dot_ip x x l.dense_backend.weight err).1.shape, in_out.data⟩,
    (tensor_dot_ip x x l.dense_backend.weight err).2,
    (mem.set in_out.data (tensor_dot_ip x x l.dense_backend.weight err).1.data).set
      in_out.data (layer_dense_feedforward l x none err).2.1.data,
    ⟨(layer_dense_feedforward l x none err).2.1.shape, in_out.data⟩, ?_, ?_, rfl, ?_, ?_⟩
  · simp only [tensor_dot_ip_mem, tensor_write, hx, store, hlt, if_true, bind, Except.bind,
      pure, Except.pure]
  · simp only [tensor_add_ip_mem, tensor_write, store, hlt1, hr1, if_true, bind,
      Except.bind, pure, Except.pure]
    rfl
  · exact tensor_read_set_self _ _ _ _ hlt1
  · intro t hne
    rw [tensor_read_set_ne _ _ _ _ hne, tensor_read_set_ne _ _ _ _ hne]

end memory_lemmas

/-! ## Claim on the tensor feedforward pushes -/

section claims_memory

variable {α : Type}

/-- C13. On an explicit memory in which `in_out` reads as the tensor `x`,
`_layer_dense_feedforward` returns and (1) leaves a provided cache with one new struct on
top of the old stack exactly when the layer is in training mode, leaves it as it was when
the layer is not, and has no cache to push to when none is provided: the cache changes if
and only if one is provided and the layer trains; (2) writes its output in place, through
the buffer address of `in_out`; (3) when it pushes, the pushed struct has the shape of
the input, its buffer address was not allocated on entry and is not that of `in_out`,
and after the in-place dot and add it still reads as `x`, the input as it was on entry;
(4) every struct whose buffer is not that of `in_out` reads as before. -/
theorem layer_dense_feedforward_pushes_input [Zero α] [Add α] [Mul α] (l : layer α)
    (mem : List (List α)) (in_out : tensor_ref) (cache : Option layers_cache_ref)
    (err : List ts_error) (x : tensor α) (hx : tensor_read mem in_out = .ok x) :
    ∃ mem' out' cache',
      layer_dense_feedforward_mem l mem in_out cache err
        = .ok (mem', out', cache', (layer_dense_feedforward l x none err).2.2.2) ∧
      cache' = (match cache with
        | some c =>
          if l.training_mode then some ⟨⟨in_out.shape, mem.length⟩ :: c.stack⟩ else some c
        | none => none) ∧
      (cache' ≠ cache ↔ (cache.isSome = true ∧ l.training_mode = true)) ∧
      out'.data = in_out.data ∧
      tensor_read mem' out' = .ok (layer_dense_feedforward l x none err).2.1 ∧
      ((cache.isSome = true ∧ l.training_mode = true) →
        x.shape = in_out.shape ∧
        tensor_read mem ⟨in_out.shape, mem.length⟩ = .error Fault.out_of_bounds ∧
        mem.length ≠ in_out.data ∧
        tensor_read mem' ⟨in_out.shape, mem.length⟩ = .ok x) ∧
      (∀ t v, t.data ≠ in_out.data → tensor_read mem t = .ok v →
        tensor_read mem' t = .ok v) := by
  obtain ⟨hlt, hxeq⟩ := tensor_read_ok mem in_out x hx
  have hxs : x.shape = in_out.shape := by rw [hxeq]
  cases cache with
  | none =>
    obtain ⟨mem1, out1, err1, mem', out', h1, h2, hout, hread, hframe⟩ :=
      layer_dense_feedforward_mem_ops l mem in_out x err hx
    refine ⟨mem', out', none, ?_, rfl, by simp, hout, hread, by simp, ?_⟩
    · simp only [layer_dense_feedforward_mem, h1, h2, bind, Except.bind, pure, Except.pure]
    · intro t v hne hv
      rw [hframe t hne]; exact hv
  | some c =>
    cases htm : l.training_mode with
    | false =>
      obtain ⟨mem1, out1, err1, mem', out', h1, h2, hout, hread, hframe⟩ :=
        layer_dense_feedforward_mem_ops l mem in_out x err hx
      refine ⟨mem', out', some c, ?_, by simp, by simp, hout, hread, by simp, ?_⟩
      · simp [layer_dense_feedforward_mem, htm, h1, h2, bind, Except.bind, pure,
          Except.pure]
      · intro t v hne hv
        rw [hframe t hne]; exact hv
    | true =>
      have hx1 : tensor_read (mem ++ [x.data]) in_out = .ok x :=
        tensor_read_append mem in_out x _ hx
      obtain ⟨mem1, out1, err1, mem', out', h1, h2, hout, hread, hframe⟩ :=
        layer_dense_feedforward_mem_ops l (mem ++ [x.data]) in_out x err hx1
      have hnew : mem.length ≠ in_out.data := by omega
      refine ⟨mem', out', some ⟨⟨in_out.shape, mem.length⟩ :: c.stack⟩, ?_, by simp, ?_,
        hout, hread, ?_, ?_⟩
      · simp [layer_dense_feedforward_mem, htm, tensor_copy_mem, hx, tensor_copy,
          layers_cache_push_ref, hxs, h1, h2, bind, Except.bind, pure, Except.pure]
      · simp only [Option.isSome_some, and_self, iff_true, ne_eq, Option.some.injEq]
        intro hc
        have hlen := congrArg (fun k => k.stack.length) hc
        simp at hlen
      · intro _
        refine ⟨hxs, by simp [tensor_read, load, bind, Except.bind], hnew, ?_⟩
        rw [hframe ⟨in_out.shape, mem.length⟩ hnew, tensor_read_append_new, ← hxs]
      · intro t v hne hv
        rw [hframe t hne]
        exact tensor_read_append mem t v _ hv

theorem layer_dense_feedforward_pushes_input_witness :
    tensor_read ex_memory ex_in_out = .ok ex_input ∧
    ∃ mem' out' cache',
      layer_dense_feedforward_mem ex_layer ex_memory ex_in_out (some ⟨[⟨⟨2, 1, 1⟩, 0⟩]⟩) []
        = .ok (mem', out', cache',
          (layer_dense_feedforward ex_layer ex_input none []).2.2.2) ∧
      cache' = (match (some ⟨[⟨⟨2, 1, 1⟩, 0⟩]⟩ : Option layers_cache_ref) with
        | some c =>
          if ex_layer.training_mode then
            some ⟨⟨ex_in_out.shape, ex_memory.length⟩ :: c.stack⟩
          else some c
        | none => none) ∧
      (cache' ≠ some ⟨[⟨⟨2, 1, 1⟩, 0⟩]⟩ ↔
        ((some ⟨[⟨⟨2, 1, 1⟩, 0⟩]⟩ : Option layers_cache_ref).isSome = true ∧
          ex_layer.training_mode = true)) ∧
      out'.data = ex_in_out.data ∧
      tensor_read mem' out' = .ok (layer_dense_feedforward ex_layer ex_input none []).2.1 ∧
      (((some ⟨[⟨⟨2, 1, 1⟩, 0⟩]⟩ : Option layers_cache_ref).isSome = true ∧
          ex_layer.training_mode = true) →
        ex_input.shape = ex_in_out.shape ∧
        tensor_read ex_memory ⟨ex_in_out.shape, ex_memory.length⟩
          = .error Fault.out_of_bounds ∧
        ex_memory.length ≠ ex_in_out.data ∧
        tensor_read mem' ⟨ex_in_out.shape, ex_memory.length⟩ = .ok ex_input) ∧
      (∀ t v, t.data ≠ ex_in_out.data → tensor_read ex_memory t = .ok v →
        tensor_read mem' t = .ok v) :=
  ⟨rfl, layer_dense_feedforward_pushes_input ex_layer ex_memory ex_in_out
    (some ⟨[⟨⟨2, 1, 1⟩, 0⟩]⟩) [] ex_input rfl⟩


end claims_memory

end TurboSpork
